import Mathlib

/-!
Verification of the timesheet analyzer core (src/app.py) via a shallow
embedding in Lean.  Cells of a spreadsheet grid are modelled by a closed
variant (text / numeric / empty), machine floats by rationals, and the
pandas / Python library operations the code relies on (substring test,
lower-casing, trimming, strptime-style date parsing, numeric coercion)
are given explicit executable models.
-/

namespace Timesheet

/-! ### Python string primitives -/

/-- List-level prefix test (used to model Python substring search). -/
def isPreList : List Char → List Char → Bool
  | [], _ => true
  | _ :: _, [] => false
  | a :: as, b :: bs => a = b && isPreList as bs

/-- Does `nd` occur as a contiguous sublist of the second argument? -/
def hasSubAux (nd : List Char) : List Char → Bool
  | [] => isPreList nd []
  | c :: cs => isPreList nd (c :: cs) || hasSubAux nd cs

/-- Model of Python `nd in hay` (substring containment). -/
def hasSub (hay nd : String) : Bool := hasSubAux nd.data hay.data

/-- Model of Python `s.startswith(pre)`. -/
def startsWithS (s pre : String) : Bool := isPreList pre.data s.data

/-- Model of Python `s.endswith(suf)`. -/
def endsWithS (s suf : String) : Bool := isPreList suf.data.reverse s.data.reverse

/-- Python whitespace for `str.strip()`. -/
def isPyWS (c : Char) : Bool :=
  c = ' ' || c = '\t' || c = '\n' || c = '\r' || c.toNat = 11 || c.toNat = 12

/-- Model of Python `s.strip()`. -/
def trimStr (s : String) : String :=
  String.mk (((s.data.dropWhile isPyWS).reverse.dropWhile isPyWS).reverse)

/-- ASCII model of Python `s.lower()`. -/
def lowerStr (s : String) : String := String.mk (s.data.map Char.toLower)

/-- Fueled worker for `s.split(sep)` (`sep` non-empty); the fuel is an
upper bound on the number of characters, so it is never exhausted. -/
def splitFuel (sep : List Char) : Nat → List Char → List Char → List (List Char)
  | 0, cs, acc => [acc.reverse ++ cs]
  | _ + 1, [], acc => [acc.reverse]
  | fuel + 1, c :: cs, acc =>
    if isPreList sep (c :: cs) then
      acc.reverse :: splitFuel sep fuel (List.drop (sep.length - 1) cs) []
    else splitFuel sep fuel cs (c :: acc)

/-- Model of Python `s.split(sep)` for a non-empty separator. -/
def splitOnS (s sep : String) : List String :=
  (splitFuel sep.data (s.data.length + 1) s.data []).map String.mk

/-- Fueled worker for `s.replace(pat, rep)` (`pat` non-empty). -/
def replaceFuel (pat rep : List Char) : Nat → List Char → List Char
  | 0, cs => cs
  | _ + 1, [] => []
  | fuel + 1, c :: cs =>
    if isPreList pat (c :: cs) then
      rep ++ replaceFuel pat rep fuel (List.drop (pat.length - 1) cs)
    else c :: replaceFuel pat rep fuel cs

/-- Model of Python `s.replace(pat, rep)` for a non-empty pattern. -/
def replaceS (s pat rep : String) : String :=
  String.mk (replaceFuel pat.data rep.data (s.data.length + 1) s.data)

/-! ### Cells and grids

`pd.read_excel(..., header=None)` yields a rectangular frame whose cells
are strings, numbers, or NaN (missing / padding of ragged rows).  -/

/-- One spreadsheet cell. -/
inductive Cell where
  | empty : Cell
  | str (s : String) : Cell
  | num (q : ℚ) : Cell
deriving DecidableEq, Repr

/-- Digit character for a value `< 10`. -/
def dChar (n : Nat) : Char := Char.ofNat (48 + n)

/-- Decimal digits of the fraction `num/den` (`num < den`), up to `fuel`
digits, stopping at a zero remainder; models the fractional part of
Python float printing closely enough for the operations used here. -/
def fracDigits : Nat → Nat → Nat → List Char
  | 0, _, _ => []
  | _ + 1, 0, _ => []
  | fuel + 1, num, den =>
    dChar (num * 10 / den) :: fracDigits fuel (num * 10 % den) den

/-- Model of Python `str` on a float value. -/
def ratStr (q : ℚ) : String :=
  let sgn := if q < 0 then "-" else ""
  let n := q.num.natAbs
  let d := q.den
  let frs := if n % d = 0 then "0" else String.mk (fracDigits 17 (n % d) d)
  sgn ++ toString (n / d) ++ "." ++ frs

/-- Model of Python `str` on a cell (`str(nan) = "nan"`). -/
def cellStr : Cell → String
  | .empty => "nan"
  | .str s => s
  | .num q => ratStr q

/-- Model of `pd.isna`. -/
def cellIsNA : Cell → Bool
  | .empty => true
  | _ => false

/-- A raw grid: rows of cells, ragged rows tolerated. -/
abbrev Grid := List (List Cell)

def nrows (g : Grid) : Nat := g.length

/-- Column count of the frame pandas builds: ragged rows are padded. -/
def ncols (g : Grid) : Nat := g.foldr (fun row m => max row.length m) 0

/-- Cell at `(r, c)`; out-of-range positions are NaN padding. -/
def cellAt (g : Grid) (r c : Nat) : Cell := ((g.getD r []).getD c .empty)

/-! ### HeaderLocator: `detect_headers` -/

def dateKeywords : List String := ["date", "day", "datum", "fecha"]

def hoursKeywords : List String := ["hour", "time", "work", "duration", "hrs", "horas"]

/-- `str(df.iloc[r, c]).lower().strip()`. -/
def headerCellText (g : Grid) (r c : Nat) : String :=
  trimStr (lowerStr (cellStr (cellAt g r c)))

/-- Does a (normalized) cell text match the date keyword set? -/
def isDateCellText (s : String) : Bool := dateKeywords.any (fun k => hasSub s k)

/-- Does a (normalized) cell text match the hours keyword set? -/
def isHoursCellText (s : String) : Bool := hoursKeywords.any (fun k => hasSub s k)

/-- One step of the inner column loop of `detect_headers`: state is
`(row_has_date, row_has_hours, temp_date_col, temp_hours_col)`. -/
def rowScanStep (g : Grid) (r : Nat) (st : Bool × Bool × Option Nat × Option Nat)
    (c : Nat) : Bool × Bool × Option Nat × Option Nat :=
  let cv := headerCellText g r c
  let st1 := if isDateCellText cv then (true, st.2.1, some c, st.2.2.2) else st
  if isHoursCellText cv then (st1.1, true, st1.2.2.1, some c) else st1

/-- The inner column loop of `detect_headers` over row `r`. -/
def rowScan (g : Grid) (r : Nat) : Bool × Bool × Option Nat × Option Nat :=
  (List.range (ncols g)).foldl (rowScanStep g r) (false, false, none, none)

/-- The outer row loop of `detect_headers` (with its early `break`). -/
def detectAux (g : Grid) : List Nat → Option Nat × Option Nat × Option Nat
  | [] => (none, none, none)
  | r :: rs =>
    let s := rowScan g r
    if s.1 && s.2.1 then (some r, s.2.2.1, s.2.2.2) else detectAux g rs

/-- Embedding of `detect_headers` (src/app.py, lines 20-57):
returns `(header_row, date_col, hours_col)`. -/
def detect_headers (g : Grid) : Option Nat × Option Nat × Option Nat :=
  detectAux g (List.range (min 10 (nrows g)))

/-! Spec-side description of `detect_headers`, written from the claim:
first qualifying row in the window, last matching column of each set. -/

def rowHasDate (g : Grid) (r : Nat) : Bool :=
  (List.range (ncols g)).any (fun c => isDateCellText (headerCellText g r c))

def rowHasHours (g : Grid) (r : Nat) : Bool :=
  (List.range (ncols g)).any (fun c => isHoursCellText (headerCellText g r c))

/-- Last (highest-index) column of the row matching the date keywords. -/
def lastDateCol (g : Grid) (r : Nat) : Option Nat :=
  ((List.range (ncols g)).filter (fun c => isDateCellText (headerCellText g r c))).getLast?

/-- Last (highest-index) column of the row matching the hours keywords. -/
def lastHoursCol (g : Grid) (r : Nat) : Option Nat :=
  ((List.range (ncols g)).filter (fun c => isHoursCellText (headerCellText g r c))).getLast?

/-- First (lowest-index) row of the search window containing both a
date-candidate and an hours-candidate. -/
def headerRowSpec (g : Grid) : Option Nat :=
  (List.range (min 10 (nrows g))).find? (fun r => rowHasDate g r && rowHasHours g r)

/-- Last element of a list as an option, defaulting to `a` when empty. -/
def lastOr : Option Nat → List Nat → Option Nat
  | a, [] => a
  | _, x :: xs => lastOr (some x) xs

lemma lastOr_nil (a : Option Nat) : lastOr a [] = a := rfl

lemma lastOr_cons (a : Option Nat) (x : Nat) (l : List Nat) :
    lastOr a (x :: l) = lastOr (some x) l := rfl

lemma lastOr_eq_getLast? (a : Option Nat) (l : List Nat) :
    lastOr a l = match l.getLast? with | some x => some x | none => a := by
  induction l generalizing a with
  | nil => rfl
  | cons x xs ih =>
    rw [lastOr_cons, ih]
    cases xs with
    | nil => rfl
    | cons y ys =>
      rw [List.getLast?_cons_cons]
      cases hgl : (y :: ys).getLast? with
      | none => simp at hgl
      | some z => rfl

lemma lastOr_none (l : List Nat) : lastOr none l = l.getLast? := by
  rw [lastOr_eq_getLast?]
  cases l.getLast? <;> rfl

/-- The inner fold of `detect_headers` computes, from any start state:
"any column matches" flags and "last matching column" registers. -/
lemma rowScan_foldl (g : Grid) (r : Nat) (cols : List Nat)
    (hd hh : Bool) (dc hc : Option Nat) :
    cols.foldl (rowScanStep g r) (hd, hh, dc, hc) =
      (hd || cols.any (fun c => isDateCellText (headerCellText g r c)),
       hh || cols.any (fun c => isHoursCellText (headerCellText g r c)),
       lastOr dc (cols.filter (fun c => isDateCellText (headerCellText g r c))),
       lastOr hc (cols.filter (fun c => isHoursCellText (headerCellText g r c)))) := by
  induction cols generalizing hd hh dc hc with
  | nil => simp [lastOr_nil]
  | cons c cs ih =>
    simp only [List.foldl_cons, List.any_cons, List.filter_cons]
    by_cases hdm : isDateCellText (headerCellText g r c) = true <;>
      by_cases hhm : isHoursCellText (headerCellText g r c) = true <;>
        simp [rowScanStep, hdm, hhm, ih, lastOr_cons]

lemma rowScan_eq (g : Grid) (r : Nat) :
    rowScan g r = (rowHasDate g r, rowHasHours g r, lastDateCol g r, lastHoursCol g r) := by
  simp [rowScan, rowScan_foldl, rowHasDate, rowHasHours, lastDateCol, lastHoursCol,
    lastOr_none]

/-- The row loop returns the first qualifying row of the candidate list,
with the last matching column of each keyword set. -/
lemma detectAux_eq (g : Grid) (rs : List Nat) :
    detectAux g rs =
      match rs.find? (fun r => rowHasDate g r && rowHasHours g r) with
      | some r => (some r, lastDateCol g r, lastHoursCol g r)
      | none => (none, none, none) := by
  induction rs with
  | nil => rfl
  | cons r rs ih =>
    rw [detectAux, rowScan_eq, List.find?_cons]
    by_cases h : (rowHasDate g r && rowHasHours g r) = true
    · simp [h]
    · simp only [h]
      simpa [h] using ih

/-- C1: `detect_headers` examines only the first `min(10, rowCount)` rows
and returns the first row containing a date-candidate and an
hours-candidate, with the last matching column of each keyword set;
all-`none` when no such row exists in the window. -/
theorem detect_headers_first_row_last_cols (g : Grid) :
    detect_headers g =
      match headerRowSpec g with
      | some r => (some r, lastDateCol g r, lastHoursCol g r)
      | none => (none, none, none) := by
  rw [detect_headers, detectAux_eq, headerRowSpec]

/-! ### C5: properties of the produced header location -/

/-- C5 (amended): every header location produced by `detect_headers` has
`row < 10`; the two columns are both present, and they are distinct
provided no single cell of the header row matches both keyword sets. -/
theorem detect_headers_location_invariant (g : Grid) (r : Nat) (dc hc : Option Nat)
    (h : detect_headers g = (some r, dc, hc)) :
    r < 10 ∧ ∃ i j, dc = some i ∧ hc = some j ∧
      ((∀ c : Nat, ¬(isDateCellText (headerCellText g r c) = true ∧
          isHoursCellText (headerCellText g r c) = true)) → i ≠ j) := by
  rw [detect_headers, detectAux_eq] at h
  cases hf : (List.range (min 10 (nrows g))).find?
      (fun r => rowHasDate g r && rowHasHours g r) with
  | none => rw [hf] at h; simp at h
  | some r' =>
    rw [hf] at h
    simp only [Prod.mk.injEq, Option.some.injEq] at h
    obtain ⟨hr, hdc, hhc⟩ := h
    subst hr
    have hmem := List.mem_of_find?_eq_some hf
    have hp := List.find?_some hf
    rw [List.mem_range] at hmem
    have hrow : r' < 10 := lt_of_lt_of_le hmem (min_le_left _ _)
    rw [Bool.and_eq_true] at hp
    obtain ⟨hpd, hph⟩ := hp
    rw [rowHasDate, List.any_eq_true] at hpd
    rw [rowHasHours, List.any_eq_true] at hph
    obtain ⟨cd, _, hcd⟩ := hpd
    obtain ⟨ch, _, hch⟩ := hph
    refine ⟨hrow, ?_⟩
    rcases hi : lastDateCol g r' with _ | i
    · rw [lastDateCol, List.getLast?_eq_none_iff, List.filter_eq_nil_iff] at hi
      exact absurd hcd (by simpa using hi cd (by assumption))
    rcases hj : lastHoursCol g r' with _ | j
    · rw [lastHoursCol, List.getLast?_eq_none_iff, List.filter_eq_nil_iff] at hj
      exact absurd hch (by simpa using hj ch (by assumption))
    refine ⟨i, j, by rw [← hdc, hi], by rw [← hhc, hj], ?_⟩
    intro hno hij
    have hifil : i ∈ (List.range (ncols g)).filter
        (fun c => isDateCellText (headerCellText g r' c)) :=
      List.mem_of_mem_getLast? (by rw [lastDateCol] at hi; simp [hi])
    have hjfil : j ∈ (List.range (ncols g)).filter
        (fun c => isHoursCellText (headerCellText g r' c)) :=
      List.mem_of_mem_getLast? (by rw [lastHoursCol] at hj; simp [hj])
    rw [List.mem_filter] at hifil hjfil
    exact hno i ⟨hifil.2, hij ▸ hjfil.2⟩

/-- A grid whose single cell matches both keyword sets. -/
def gridDT : Grid := [[Cell.str "date time"]]

/-- C5 counterexample: on `gridDT` the detected date column equals the
detected hours column, refuting `dateColumn ≠ hoursColumn`. -/
theorem detect_headers_distinct_cols_cex :
    detect_headers gridDT = (some 0, some 0, some 0) ∧
    ¬(∀ (g : Grid) (r i j : Nat),
        detect_headers g = (some r, some i, some j) → i ≠ j) := by
  refine ⟨by decide, fun hall => hall gridDT 0 0 0 (by decide) rfl⟩

/-- A grid with separate date and hours header cells. -/
def gridDW : Grid := [[Cell.str "Date", Cell.str "Hours"]]

/-- Witness for the amended C5 theorem at a concrete grid. -/
theorem detect_headers_location_invariant_witness :
    0 < 10 ∧ ∃ i j, (some 0 : Option Nat) = some i ∧ (some 1 : Option Nat) = some j ∧
      ((∀ c : Nat, ¬(isDateCellText (headerCellText gridDW 0 c) = true ∧
          isHoursCellText (headerCellText gridDW 0 c) = true)) → i ≠ j) :=
  detect_headers_location_invariant gridDW 0 (some 0) (some 1) (by decide)

/-! ### NameInferer: `extract_developer_name` -/

/-- Python `str.title()` over ASCII: first letter of each alphabetic run
upper-cased, the rest lower-cased, other characters untouched. -/
def pyTitleAux : Bool → List Char → List Char
  | _, [] => []
  | prevCased, c :: cs =>
    if c.isAlpha then
      (if prevCased then c.toLower else c.toUpper) :: pyTitleAux true cs
    else c :: pyTitleAux false cs

def pyTitle (s : String) : String := String.mk (pyTitleAux false s.data)

/-- Python `str.isalpha()`: non-empty and all alphabetic. -/
def pyIsAlpha (s : String) : Bool := !s.data.isEmpty && s.data.all Char.isAlpha

/-- `filename.split('/')[-1]` then removal of `.xlsx` / `.xls`
(src/app.py, lines 69-70). -/
def devBase (filename : String) : String :=
  replaceS (replaceS ((splitOnS filename "/").getLastD "") ".xlsx" "") ".xls" ""

/-- `base_name.split('_')[0].strip()` then `.split(' ')[0].strip()`
(src/app.py, lines 79-80). -/
def devToken (filename : String) : String :=
  trimStr ((splitOnS (trimStr ((splitOnS (devBase filename) "_").headD "")) " ").headD "")

/-- Embedding of `extract_developer_name` (src/app.py, lines 59-86). -/
def extract_developer_name (filename : String) : String :=
  if hasSub (devBase filename) "*" then
    pyTitle (trimStr ((splitOnS (devBase filename) "*").headD ""))
  else if !(devToken filename).data.isEmpty && pyIsAlpha (devToken filename) then
    pyTitle (devToken filename)
  else "Unknown"

/-- C3: after stripping path and extension, a marker `*` yields the
title-cased prefix before it; otherwise an alphabetic non-empty leading
token is title-cased; otherwise the result is `"Unknown"`. -/
theorem extract_developer_name_cases (filename : String) :
    (hasSub (devBase filename) "*" = true →
      extract_developer_name filename =
        pyTitle (trimStr ((splitOnS (devBase filename) "*").headD ""))) ∧
    (hasSub (devBase filename) "*" = false → pyIsAlpha (devToken filename) = true →
      extract_developer_name filename = pyTitle (devToken filename)) ∧
    (hasSub (devBase filename) "*" = false → pyIsAlpha (devToken filename) = false →
      extract_developer_name filename = "Unknown") := by
  refine ⟨fun hm => ?_, fun hm ha => ?_, fun hm ha => ?_⟩
  · rw [extract_developer_name, hm]
    simp
  · have hne : (devToken filename).data.isEmpty = false := by
      rcases hae : (devToken filename).data.isEmpty with _ | _
      · rfl
      · rw [pyIsAlpha, hae] at ha; simp at ha
    rw [extract_developer_name, hm, hne, ha]
    simp
  · rw [extract_developer_name, hm, ha]
    simp

/-- Witness for C3 at a concrete filename. -/
theorem extract_developer_name_cases_witness :
    extract_developer_name "john_timesheet.xlsx" = "John" :=
  ((extract_developer_name_cases "john_timesheet.xlsx").2.1 (by decide)
    (by decide)).trans (by decide)

/-! ### EntryFilter: `is_valid_excel_file` -/

/-- `filename.lower().endswith(('.xlsx', '.xls'))`. -/
def lowerEndsWithExcelExt (f : String) : Bool :=
  endsWithS (lowerStr f) ".xlsx" || endsWithS (lowerStr f) ".xls"

/-- Embedding of `is_valid_excel_file` (src/app.py, lines 183-203). -/
def is_valid_excel_file (f : String) : Bool :=
  if startsWithS f "__MACOSX/" || hasSub f "._" then false
  else if startsWithS f "." || hasSub f "/.DS_Store" then false
  else if !lowerEndsWithExcelExt f then false
  else if endsWithS f "/" then false
  else true

/-- Claim-side predicate: the base name or some path segment starts
with a dot. -/
def hasHiddenSegment (f : String) : Bool :=
  (splitOnS f "/").any (fun seg => startsWithS seg ".")

/-- C6 counterexample: `"a/.b.xlsx"` has a path segment starting with
`.` yet passes the filter. -/
theorem is_valid_excel_file_hidden_segment_cex :
    hasHiddenSegment "a/.b.xlsx" = true ∧ is_valid_excel_file "a/.b.xlsx" = true := by
  exact ⟨by decide, by decide⟩

/-- C6 (amended): the filter rejects exactly the names starting with
`__MACOSX/`, containing `._`, starting with `.`, containing
`/.DS_Store`, lacking a spreadsheet extension (case-insensitive), or
ending with `/`; hidden path segments are not otherwise rejected. -/
theorem is_valid_excel_file_iff (f : String) :
    is_valid_excel_file f = true ↔
      (startsWithS f "__MACOSX/" = false ∧ hasSub f "._" = false ∧
       startsWithS f "." = false ∧ hasSub f "/.DS_Store" = false ∧
       lowerEndsWithExcelExt f = true ∧ endsWithS f "/" = false) := by
  rw [is_valid_excel_file]
  rcases h1 : startsWithS f "__MACOSX/" <;>
    rcases h2 : hasSub f "._" <;>
      rcases h3 : startsWithS f "." <;>
        rcases h4 : hasSub f "/.DS_Store" <;>
          rcases h5 : lowerEndsWithExcelExt f <;>
            rcases h6 : endsWithS f "/" <;> simp

/-- C10: any name containing the substring `._` anywhere is rejected. -/
theorem is_valid_excel_file_dot_underscore (f : String)
    (h : hasSub f "._" = true) : is_valid_excel_file f = false := by
  rw [is_valid_excel_file, h]
  simp

/-- Witness for C10: an ordinary spreadsheet name containing `._`. -/
theorem is_valid_excel_file_dot_underscore_witness :
    is_valid_excel_file "report._v2.xlsx" = false :=
  is_valid_excel_file_dot_underscore "report._v2.xlsx" (by decide)

/-! ### Calendar dates and strptime-style parsing

`clean_and_parse_date` tries `pd.to_datetime(s, format=fmt)` for a fixed
list of patterns.  The format-directed parser is modelled after the
strptime pattern matcher that backs it: `%Y` is exactly four digits,
`%m` matches the regex alternation `1[0-2]|0[1-9]|[1-9]`, `%d` matches
`3[01]|[12]\d|0[1-9]|[1-9]`, `%B`/`%b` match English month names
case-insensitively (longest names first), the pattern must consume the
whole string, and an invalid calendar combination fails the format. -/

structure Date where
  year : Nat
  month : Nat
  day : Nat
deriving DecidableEq, Repr

def isLeap (y : Nat) : Bool := (y % 4 = 0 && y % 100 ≠ 0) || y % 400 = 0

def daysInMonth (y m : Nat) : Nat :=
  if m = 2 then (if isLeap y then 29 else 28)
  else if m = 4 || m = 6 || m = 9 || m = 11 then 30
  else 31

def validDate (y m d : Nat) : Bool :=
  (1 ≤ y && y ≤ 9999) && (1 ≤ m && m ≤ 12) && (1 ≤ d && d ≤ daysInMonth y m)

/-- `pd.to_datetime` builds a nanosecond `Timestamp`, which is bounded
to 1677-09-21T00:12:43 .. 2262-04-11T23:47:16; a date-only string
parses to midnight, so the representable dates are
1677-09-22 .. 2262-04-11.  Outside this range the constructor raises
(caught by the bare `except`), and the permissive fallback yields NaT. -/
def inTimestampRange (y m d : Nat) : Bool :=
  ((1677 < y) || (y = 1677 && ((9 < m) || (m = 9 && 22 ≤ d)))) &&
  ((y < 2262) || (y = 2262 && ((m < 4) || (m = 4 && d ≤ 11))))

/-- Numeric value of a digit character. -/
def dVal (c : Char) : Nat := c.toNat - 48

/-- strptime `%m`: regex `1[0-2]|0[1-9]|[1-9]`, alternatives in order. -/
def parseMon : List Char → Option (Nat × List Char)
  | c1 :: c2 :: rest =>
    if c1 = '1' && ('0' ≤ c2 && c2 ≤ '2') then some (10 + dVal c2, rest)
    else if c1 = '0' && ('1' ≤ c2 && c2 ≤ '9') then some (dVal c2, rest)
    else if '1' ≤ c1 && c1 ≤ '9' then some (dVal c1, c2 :: rest)
    else none
  | [c1] => if '1' ≤ c1 && c1 ≤ '9' then some (dVal c1, []) else none
  | [] => none

/-- strptime `%d`: regex `3[01]|[12][0-9]|0[1-9]|[1-9]`. -/
def parseDay : List Char → Option (Nat × List Char)
  | c1 :: c2 :: rest =>
    if c1 = '3' && ('0' ≤ c2 && c2 ≤ '1') then some (30 + dVal c2, rest)
    else if ('1' ≤ c1 && c1 ≤ '2') && c2.isDigit then some (10 * dVal c1 + dVal c2, rest)
    else if c1 = '0' && ('1' ≤ c2 && c2 ≤ '9') then some (dVal c2, rest)
    else if '1' ≤ c1 && c1 ≤ '9' then some (dVal c1, c2 :: rest)
    else none
  | [c1] => if '1' ≤ c1 && c1 ≤ '9' then some (dVal c1, []) else none
  | [] => none

/-- strptime `%Y`: exactly four digits. -/
def parseY4 : List Char → Option (Nat × List Char)
  | c1 :: c2 :: c3 :: c4 :: rest =>
    if c1.isDigit && c2.isDigit && c3.isDigit && c4.isDigit then
      some (1000 * dVal c1 + 100 * dVal c2 + 10 * dVal c3 + dVal c4, rest)
    else none
  | _ => none

def monthName : Nat → String
  | 1 => "January" | 2 => "February" | 3 => "March" | 4 => "April"
  | 5 => "May" | 6 => "June" | 7 => "July" | 8 => "August"
  | 9 => "September" | 10 => "October" | 11 => "November" | 12 => "December"
  | _ => ""

def monthAbbr : Nat → String
  | 1 => "Jan" | 2 => "Feb" | 3 => "Mar" | 4 => "Apr" | 5 => "May" | 6 => "Jun"
  | 7 => "Jul" | 8 => "Aug" | 9 => "Sep" | 10 => "Oct" | 11 => "Nov" | 12 => "Dec"
  | _ => ""

/-- Case-insensitive prefix test (strptime month names ignore case). -/
def ciPre : List Char → List Char → Bool
  | [], _ => true
  | _ :: _, [] => false
  | a :: as, b :: bs => a.toLower = b.toLower && ciPre as bs

/-- `%B` alternation: full month names, longest first (ties in calendar
order), as in the strptime regex construction. -/
def fullMonthTable : List (Nat × String) :=
  [(9, "September"), (2, "February"), (11, "November"), (12, "December"),
   (1, "January"), (10, "October"), (8, "August"), (3, "March"), (4, "April"),
   (6, "June"), (7, "July"), (5, "May")]

/-- `%b` alternation: abbreviated month names. -/
def abbrMonthTable : List (Nat × String) :=
  [(1, "Jan"), (2, "Feb"), (3, "Mar"), (4, "Apr"), (5, "May"), (6, "Jun"),
   (7, "Jul"), (8, "Aug"), (9, "Sep"), (10, "Oct"), (11, "Nov"), (12, "Dec")]

/-- Match a month name from a table against a prefix of the input. -/
def parseMonthIn : List (Nat × String) → List Char → Option (Nat × List Char)
  | [], _ => none
  | (m, nm) :: t, cs =>
    if ciPre nm.data cs then some (m, List.drop nm.data.length cs)
    else parseMonthIn t cs

/-- One strptime directive. -/
inductive Tok where
  | lit (c : Char)
  | y4
  | m2
  | d2
  | bFull
  | bAbbr
deriving DecidableEq, Repr

/-- Run a format over the input, accumulating `(year, month, day)`;
fails unless the whole input is consumed. -/
def runToks : List Tok → List Char → Nat × Nat × Nat → Option (Nat × Nat × Nat)
  | [], cs, acc => if cs.isEmpty then some acc else none
  | .lit c :: ts, cs, acc =>
    match cs with
    | c2 :: cs' => if c2 = c then runToks ts cs' acc else none
    | [] => none
  | .y4 :: ts, cs, acc =>
    match parseY4 cs with
    | some (y, cs') => runToks ts cs' (y, acc.2.1, acc.2.2)
    | none => none
  | .m2 :: ts, cs, acc =>
    match parseMon cs with
    | some (m, cs') => runToks ts cs' (acc.1, m, acc.2.2)
    | none => none
  | .d2 :: ts, cs, acc =>
    match parseDay cs with
    | some (d, cs') => runToks ts cs' (acc.1, acc.2.1, d)
    | none => none
  | .bFull :: ts, cs, acc =>
    match parseMonthIn fullMonthTable cs with
    | some (m, cs') => runToks ts cs' (acc.1, m, acc.2.2)
    | none => none
  | .bAbbr :: ts, cs, acc =>
    match parseMonthIn abbrMonthTable cs with
    | some (m, cs') => runToks ts cs' (acc.1, m, acc.2.2)
    | none => none

/-- Model of `pd.to_datetime(s, format=fmt)`: strict parse of the whole
string, then calendar validation. -/
def strpDate (toks : List Tok) (s : String) : Option Date :=
  match runToks toks s.data (0, 0, 0) with
  | some (y, m, d) =>
    if validDate y m d && inTimestampRange y m d then some ⟨y, m, d⟩ else none
  | none => none

def fmtISO : List Tok := [.y4, .lit '-', .m2, .lit '-', .d2]

def fmtMDYslash : List Tok := [.m2, .lit '/', .d2, .lit '/', .y4]

def fmtDMYslash : List Tok := [.d2, .lit '/', .m2, .lit '/', .y4]

def fmtMDYdash : List Tok := [.m2, .lit '-', .d2, .lit '-', .y4]

def fmtDMYdash : List Tok := [.d2, .lit '-', .m2, .lit '-', .y4]

def fmtYMDslash : List Tok := [.y4, .lit '/', .m2, .lit '/', .d2]

def fmtBdY : List Tok := [.bFull, .lit ' ', .d2, .lit ',', .lit ' ', .y4]

def fmtAbdY : List Tok := [.bAbbr, .lit ' ', .d2, .lit ',', .lit ' ', .y4]

def fmtDBY : List Tok := [.d2, .lit ' ', .bFull, .lit ' ', .y4]

def fmtDAbY : List Tok := [.d2, .lit ' ', .bAbbr, .lit ' ', .y4]

/-- The `date_formats` list of `clean_and_parse_date`
(src/app.py, lines 98-109), in source order. -/
def date_formats : List (List Tok) :=
  [fmtISO, fmtMDYslash, fmtDMYslash, fmtMDYdash, fmtDMYdash, fmtYMDslash,
   fmtBdY, fmtAbdY, fmtDBY, fmtDAbY]

/-- The `for fmt in date_formats: try ... except: continue` loop. -/
def tryFormats : List (List Tok) → String → Option Date
  | [], _ => none
  | f :: fs, s =>
    match strpDate f s with
    | some d => some d
    | none => tryFormats fs s

/-- Embedding of `clean_and_parse_date` (src/app.py, lines 88-121).
The permissive fallback `pd.to_datetime(s, errors=coerce)` is
implementation-defined; it is abstracted as the parameter `flex`, so
every theorem below holds for an arbitrary fallback. -/
def clean_and_parse_date (flex : String → Option Date) (v : Cell) : Option Date :=
  if cellIsNA v then none
  else
    match tryFormats date_formats (trimStr (cellStr v)) with
    | some d => some d
    | none => flex (trimStr (cellStr v))

/-! Formatting (the round-trip claim's construction): Python `strftime`
on the same patterns, numeric fields zero-padded. -/

def pad2 (n : Nat) : List Char := [dChar (n / 10), dChar (n % 10)]

def pad4 (n : Nat) : List Char :=
  [dChar (n / 1000), dChar (n / 100 % 10), dChar (n / 10 % 10), dChar (n % 10)]

def renderTok (dt : Date) : Tok → List Char
  | .lit c => [c]
  | .y4 => pad4 dt.year
  | .m2 => pad2 dt.month
  | .d2 => pad2 dt.day
  | .bFull => (monthName dt.month).data
  | .bAbbr => (monthAbbr dt.month).data

/-- Python `strftime` over one of the supported patterns. -/
def renderFmt (toks : List Tok) (dt : Date) : String :=
  String.mk ((toks.map (renderTok dt)).flatten)

/-! Component lemmas about the strptime model on rendered fields. -/

lemma dChar_isDigit {n : Nat} (h : n < 10) : (dChar n).isDigit = true := by
  interval_cases n <;> decide

lemma dVal_dChar {n : Nat} (h : n < 10) : dVal (dChar n) = n := by
  interval_cases n <;> decide

lemma isPyWS_dChar {n : Nat} (h : n < 10) : isPyWS (dChar n) = false := by
  interval_cases n <;> decide

lemma dChar_ne_slash {n : Nat} (h : n < 10) : ¬(dChar n = '/') := by
  interval_cases n <;> decide

lemma dChar_ne_dash {n : Nat} (h : n < 10) : ¬(dChar n = '-') := by
  interval_cases n <;> decide

lemma dChar_ne_space {n : Nat} (h : n < 10) : ¬(dChar n = ' ') := by
  interval_cases n <;> decide

lemma parseMon_pad2 {m : Nat} (h1 : 1 ≤ m) (h2 : m ≤ 12) (cs : List Char) :
    parseMon (pad2 m ++ cs) = some (m, cs) := by
  interval_cases m <;> simp [pad2, parseMon, dChar, dVal]

lemma parseMon_pad2_ge13 {d : Nat} (h1 : 13 ≤ d) (h2 : d ≤ 31) (cs : List Char) :
    parseMon (pad2 d ++ cs) = some (d / 10, dChar (d % 10) :: cs) := by
  interval_cases d <;> simp [pad2, parseMon, dChar, dVal]

lemma parseDay_pad2 {d : Nat} (h1 : 1 ≤ d) (h2 : d ≤ 31) (cs : List Char) :
    parseDay (pad2 d ++ cs) = some (d, cs) := by
  interval_cases d <;> simp [pad2, parseDay, dChar, dVal]

lemma parseY4_pad4 {y : Nat} (h : y ≤ 9999) (cs : List Char) :
    parseY4 (pad4 y ++ cs) = some (y, cs) := by
  have h1 : y / 1000 < 10 := by omega
  have h2 : y / 100 % 10 < 10 := by omega
  have h3 : y / 10 % 10 < 10 := by omega
  have h4 : y % 10 < 10 := by omega
  simp only [pad4, List.cons_append, List.nil_append, parseY4,
    dChar_isDigit h1, dChar_isDigit h2, dChar_isDigit h3, dChar_isDigit h4,
    Bool.and_self, if_true, dVal_dChar h1, dVal_dChar h2, dVal_dChar h3, dVal_dChar h4]
  refine congrArg some (Prod.ext ?_ rfl)
  simp
  omega

lemma parseY4_sep3 {c : Char} (h : c.isDigit = false) (a b : Char) (cs : List Char) :
    parseY4 (a :: b :: c :: cs) = none := by
  cases cs <;> simp [parseY4, h]

lemma parseY4_head {c : Char} (h : c.isDigit = false) (cs : List Char) :
    parseY4 (c :: cs) = none := by
  rcases cs with _ | ⟨b, _ | ⟨b2, _ | ⟨b3, r⟩⟩⟩ <;> simp [parseY4, h]

lemma parseMonthIn_digit_full {n : Nat} (h : n < 10) (cs : List Char) :
    parseMonthIn fullMonthTable (dChar n :: cs) = none := by
  interval_cases n <;> simp +decide [fullMonthTable, parseMonthIn, ciPre]

lemma parseMonthIn_digit_abbr {n : Nat} (h : n < 10) (cs : List Char) :
    parseMonthIn abbrMonthTable (dChar n :: cs) = none := by
  interval_cases n <;> simp +decide [abbrMonthTable, parseMonthIn, ciPre]

lemma monthFull_parse {m : Nat} (h1 : 1 ≤ m) (h2 : m ≤ 12) (cs : List Char) :
    parseMonthIn fullMonthTable ((monthName m).data ++ cs) = some (m, cs) := by
  interval_cases m <;> simp +decide [fullMonthTable, parseMonthIn, ciPre, monthName]

lemma monthAbbr_parse {m : Nat} (h1 : 1 ≤ m) (h2 : m ≤ 12) (cs : List Char) :
    parseMonthIn abbrMonthTable ((monthAbbr m).data ++ cs) = some (m, cs) := by
  interval_cases m <;> simp +decide [abbrMonthTable, parseMonthIn, ciPre, monthAbbr]

/-- On an abbreviated month name followed by a space, the full-name
alternation fails for every month except May, whose full name is its
abbreviation. -/
lemma monthFull_on_abbr {m : Nat} (h1 : 1 ≤ m) (h2 : m ≤ 12) (h5 : m ≠ 5) (cs : List Char) :
    parseMonthIn fullMonthTable ((monthAbbr m).data ++ ' ' :: cs) = none := by
  interval_cases m <;>
    first
    | omega
    | simp +decide [fullMonthTable, parseMonthIn, ciPre, monthAbbr]

/-- `strip()` is the identity on strings that neither start nor end
with whitespace. -/
lemma trimStr_eq_self {cs : List Char}
    (h1 : ∀ c, cs.head? = some c → isPyWS c = false)
    (h2 : ∀ c, cs.getLast? = some c → isPyWS c = false) :
    trimStr (String.mk cs) = String.mk cs := by
  cases cs with
  | nil => rfl
  | cons c1 rest =>
    have hh := h1 c1 (by simp)
    rw [trimStr]
    rw [List.dropWhile_cons_of_neg (by simp [hh])]
    rcases hrev : (c1 :: rest).reverse with _ | ⟨d, ds⟩
    · exact absurd hrev (by simp)
    · have hd : (c1 :: rest).getLast? = some d := by
        rw [← List.head?_reverse, hrev]; rfl
      have hdw : (d :: ds).dropWhile isPyWS = d :: ds :=
        List.dropWhile_cons_of_neg (by simp [h2 d hd])
      rw [hdw, ← hrev, List.reverse_reverse]

lemma head?_pad4_append (y : Nat) (cs : List Char) :
    (pad4 y ++ cs).head? = some (dChar (y / 1000)) := by simp [pad4]

lemma head?_pad2_append (n : Nat) (cs : List Char) :
    (pad2 n ++ cs).head? = some (dChar (n / 10)) := by simp [pad2]

lemma getLast?_append_pad4 (l : List Char) (y : Nat) :
    (l ++ pad4 y).getLast? = some (dChar (y % 10)) := by simp [pad4]

lemma getLast?_append_pad2 (l : List Char) (n : Nat) :
    (l ++ pad2 n).getLast? = some (dChar (n % 10)) := by simp [pad2]

/-- Bounds packaged out of `validDate`. -/
lemma validDate_bounds {y m d : Nat} (hv : validDate y m d = true) :
    1 ≤ y ∧ y ≤ 9999 ∧ 1 ≤ m ∧ m ≤ 12 ∧ 1 ≤ d ∧ d ≤ 31 := by
  have hd31 : daysInMonth y m ≤ 31 := by
    rw [daysInMonth]
    split
    · split <;> omega
    · split <;> omega
  rw [validDate] at hv
  simp only [Bool.and_eq_true, decide_eq_true_eq] at hv
  omega

lemma pad2_cons (n : Nat) (cs : List Char) :
    pad2 n ++ cs = dChar (n / 10) :: dChar (n % 10) :: cs := rfl

lemma parseDay_pad2_end {d : Nat} (h1 : 1 ≤ d) (h2 : d ≤ 31) :
    parseDay (pad2 d) = some (d, []) := by
  have h := parseDay_pad2 h1 h2 []
  simpa using h

lemma parseY4_pad4_end {y : Nat} (h : y ≤ 9999) :
    parseY4 (pad4 y) = some (y, []) := by
  have h2 := parseY4_pad4 h []
  simpa using h2

lemma strpDate_run {toks : List Tok} {cs : List Char} {y m d : Nat}
    (hrun : runToks toks cs (0, 0, 0) = some (y, m, d)) (hv : validDate y m d = true)
    (hts : inTimestampRange y m d = true) :
    strpDate toks (String.mk cs) = some ⟨y, m, d⟩ := by
  have h0 : strpDate toks (String.mk cs)
      = match runToks toks cs (0, 0, 0) with
        | some (y, m, d) =>
          if validDate y m d && inTimestampRange y m d then some ⟨y, m, d⟩ else none
        | none => none := rfl
  rw [h0, hrun]
  simp [hv, hts]

lemma strpDate_run_none {toks : List Tok} {cs : List Char}
    (hrun : runToks toks cs (0, 0, 0) = none) :
    strpDate toks (String.mk cs) = none := by
  have h0 : strpDate toks (String.mk cs)
      = match runToks toks cs (0, 0, 0) with
        | some (y, m, d) =>
          if validDate y m d && inTimestampRange y m d then some ⟨y, m, d⟩ else none
        | none => none := rfl
  rw [h0, hrun]

lemma tryFormats_cons_some {f : List Tok} {fs : List (List Tok)} {s : String} {d : Date}
    (h : strpDate f s = some d) : tryFormats (f :: fs) s = some d := by
  rw [tryFormats, h]

lemma tryFormats_cons_none {f : List Tok} {fs : List (List Tok)} {s : String}
    (h : strpDate f s = none) : tryFormats (f :: fs) s = tryFormats fs s := by
  rw [tryFormats, h]

lemma clean_of_tryFormats {flex : String → Option Date} {s : String} {d : Date}
    (htrim : trimStr s = s) (ht : tryFormats date_formats s = some d) :
    clean_and_parse_date flex (.str s) = some d := by
  rw [clean_and_parse_date]
  simp [cellIsNA, cellStr, htrim, ht]

/-- Round trip through format 1, `%Y-%m-%d`. -/
lemma roundtrip_ISO (flex : String → Option Date) {Y M D : Nat}
    (hv : validDate Y M D = true) (hts : inTimestampRange Y M D = true) :
    clean_and_parse_date flex (.str (renderFmt fmtISO ⟨Y, M, D⟩)) = some ⟨Y, M, D⟩ := by
  obtain ⟨hY1, hY2, hM1, hM2, hD1, hD2⟩ := validDate_bounds hv
  have hform : renderFmt fmtISO ⟨Y, M, D⟩
      = String.mk (pad4 Y ++ '-' :: (pad2 M ++ '-' :: pad2 D)) := rfl
  rw [hform]
  apply clean_of_tryFormats
  · apply trimStr_eq_self
    · intro c hc
      rw [head?_pad4_append] at hc
      obtain rfl := Option.some.inj hc
      exact isPyWS_dChar (by omega)
    · intro c hc
      have hlast : (pad4 Y ++ '-' :: (pad2 M ++ '-' :: pad2 D)).getLast?
          = some (dChar (D % 10)) := by
        simp [pad4, pad2]
      rw [hlast] at hc
      obtain rfl := Option.some.inj hc
      exact isPyWS_dChar (by omega)
  · rw [date_formats]
    apply tryFormats_cons_some
    apply strpDate_run ?_ hv hts
    simp only [fmtISO, runToks, parseY4_pad4 hY2, parseMon_pad2 hM1 hM2,
      parseDay_pad2_end hD1 hD2]
    simp

lemma pad4_cons (n : Nat) (cs : List Char) :
    pad4 n ++ cs = dChar (n / 1000) :: dChar (n / 100 % 10) :: dChar (n / 10 % 10)
      :: dChar (n % 10) :: cs := rfl

/-- `%m` consumes one or two characters. -/
lemma parseMon_remainder {a b : Char} {cs : List Char} {v : Nat} {r : List Char}
    (h : parseMon (a :: b :: cs) = some (v, r)) : r = cs ∨ r = b :: cs := by
  rw [parseMon] at h
  split_ifs at h <;> simp only [Option.some.injEq, Prod.mk.injEq] at h
  · exact Or.inl h.2.symm
  · exact Or.inl h.2.symm
  · exact Or.inr h.2.symm

/-- `%d` consumes one or two characters. -/
lemma parseDay_remainder {a b : Char} {cs : List Char} {v : Nat} {r : List Char}
    (h : parseDay (a :: b :: cs) = some (v, r)) : r = cs ∨ r = b :: cs := by
  rw [parseDay] at h
  split_ifs at h <;> simp only [Option.some.injEq, Prod.mk.injEq] at h
  · exact Or.inl h.2.symm
  · exact Or.inl h.2.symm
  · exact Or.inl h.2.symm
  · exact Or.inr h.2.symm

/-- `%m` fails on a character above `'9'` (such as a letter). -/
lemma parseMon_gt9 {c : Char} (h : ('9' : Char) < c) (cs : List Char) :
    parseMon (c :: cs) = none := by
  have h1 : c ≠ '1' := by intro heq; rw [heq] at h; exact absurd h (by decide)
  have h0 : c ≠ '0' := by intro heq; rw [heq] at h; exact absurd h (by decide)
  have h9 : ¬(c ≤ '9') := not_le.mpr h
  cases cs with
  | nil => simp [parseMon, h1, h0, h9]
  | cons b bs => simp [parseMon, h1, h0, h9]

/-- `%d` fails on a character above `'9'`. -/
lemma parseDay_gt9 {c : Char} (h : ('9' : Char) < c) (cs : List Char) :
    parseDay (c :: cs) = none := by
  have h1 : c ≠ '3' := by intro heq; rw [heq] at h; exact absurd h (by decide)
  have h0 : c ≠ '0' := by intro heq; rw [heq] at h; exact absurd h (by decide)
  have h2 : ¬(c ≤ '2') := by
    intro hle; exact absurd (lt_of_lt_of_le h hle) (by decide)
  have h9 : ¬(c ≤ '9') := not_le.mpr h
  cases cs with
  | nil => simp [parseDay, h1, h0, h2, h9]
  | cons b bs => simp [parseDay, h1, h0, h2, h9]

/-- A `%m` directive followed by a literal dies when neither possible
remainder starts with that literal. -/
lemma run_m2_lit_none {a b : Char} {cs : List Char} {l : Char} {ts : List Tok}
    {acc : Nat × Nat × Nat} (hb : ¬(b = l))
    (hc : ∀ c cs', cs = c :: cs' → ¬(c = l)) :
    runToks (.m2 :: .lit l :: ts) (a :: b :: cs) acc = none := by
  simp only [runToks, parseMon]
  split_ifs
  · cases cs with
    | nil => rfl
    | cons c cs' => simp [runToks, hc c cs' rfl]
  · cases cs with
    | nil => rfl
    | cons c cs' => simp [runToks, hc c cs' rfl]
  · simp [runToks, hb]
  · rfl

/-- A `%d` directive followed by a literal dies when neither possible
remainder starts with that literal. -/
lemma run_d2_lit_none {a b : Char} {cs : List Char} {l : Char} {ts : List Tok}
    {acc : Nat × Nat × Nat} (hb : ¬(b = l))
    (hc : ∀ c cs', cs = c :: cs' → ¬(c = l)) :
    runToks (.d2 :: .lit l :: ts) (a :: b :: cs) acc = none := by
  simp only [runToks, parseDay]
  split_ifs
  · cases cs with
    | nil => rfl
    | cons c cs' => simp [runToks, hc c cs' rfl]
  · cases cs with
    | nil => rfl
    | cons c cs' => simp [runToks, hc c cs' rfl]
  · cases cs with
    | nil => rfl
    | cons c cs' => simp [runToks, hc c cs' rfl]
  · simp [runToks, hb]
  · rfl

/-- Every full month name starts with an upper-case letter. -/
lemma monthName_shape {m : Nat} (h1 : 1 ≤ m) (h2 : m ≤ 12) :
    ∃ c rest, (monthName m).data = c :: rest ∧ ('9' : Char) < c ∧
      c.isDigit = false ∧ isPyWS c = false := by
  interval_cases m <;> exact ⟨_, _, rfl, by decide, by decide, by decide⟩

/-- Every abbreviated month name starts with an upper-case letter. -/
lemma monthAbbr_shape {m : Nat} (h1 : 1 ≤ m) (h2 : m ≤ 12) :
    ∃ c rest, (monthAbbr m).data = c :: rest ∧ ('9' : Char) < c ∧
      c.isDigit = false ∧ isPyWS c = false := by
  interval_cases m <;> exact ⟨_, _, rfl, by decide, by decide, by decide⟩

/-- `%m` then a non-digit literal dies on a four-digit year prefix. -/
lemma run_m2_lit_pad4 {l : Char} {n : Nat} {cs : List Char} {ts : List Tok}
    {acc : Nat × Nat × Nat} (hl : ∀ k, k < 10 → ¬(dChar k = l)) :
    runToks (.m2 :: .lit l :: ts) (pad4 n ++ cs) acc = none := by
  rw [pad4_cons]
  refine run_m2_lit_none (hl _ (by omega)) ?_
  intro c cs' heq
  injection heq with h1 h2
  rw [← h1]
  exact hl _ (by omega)

/-- `%d` then a non-digit literal dies on a four-digit year prefix. -/
lemma run_d2_lit_pad4 {l : Char} {n : Nat} {cs : List Char} {ts : List Tok}
    {acc : Nat × Nat × Nat} (hl : ∀ k, k < 10 → ¬(dChar k = l)) :
    runToks (.d2 :: .lit l :: ts) (pad4 n ++ cs) acc = none := by
  rw [pad4_cons]
  refine run_d2_lit_none (hl _ (by omega)) ?_
  intro c cs' heq
  injection heq with h1 h2
  rw [← h1]
  exact hl _ (by omega)

/-- `%m` then a non-matching literal dies on a two-digit day prefix. -/
lemma run_m2_lit_pad2 {l sep : Char} {n : Nat} {cs : List Char} {ts : List Tok}
    {acc : Nat × Nat × Nat} (hl : ∀ k, k < 10 → ¬(dChar k = l)) (hsep : ¬(sep = l)) :
    runToks (.m2 :: .lit l :: ts) (pad2 n ++ sep :: cs) acc = none := by
  rw [pad2_cons]
  refine run_m2_lit_none (hl _ (by omega)) ?_
  intro c cs' heq
  injection heq with h1 h2
  rw [← h1]
  exact hsep

/-- Round trip through format 2, `%m/%d/%Y`. -/
lemma roundtrip_MDYslash (flex : String → Option Date) {Y M D : Nat}
    (hv : validDate Y M D = true) (hts : inTimestampRange Y M D = true) :
    clean_and_parse_date flex (.str (renderFmt fmtMDYslash ⟨Y, M, D⟩)) = some ⟨Y, M, D⟩ := by
  obtain ⟨hY1, hY2, hM1, hM2, hD1, hD2⟩ := validDate_bounds hv
  have hform : renderFmt fmtMDYslash ⟨Y, M, D⟩
      = String.mk (pad2 M ++ '/' :: (pad2 D ++ '/' :: pad4 Y)) := rfl
  rw [hform]
  apply clean_of_tryFormats
  · apply trimStr_eq_self
    · intro c hc
      rw [head?_pad2_append] at hc
      obtain rfl := Option.some.inj hc
      exact isPyWS_dChar (by omega)
    · intro c hc
      have hlast : (pad2 M ++ '/' :: (pad2 D ++ '/' :: pad4 Y)).getLast?
          = some (dChar (Y % 10)) := by simp [pad4, pad2]
      rw [hlast] at hc
      obtain rfl := Option.some.inj hc
      exact isPyWS_dChar (by omega)
  · have hf1 : strpDate fmtISO (String.mk (pad2 M ++ '/' :: (pad2 D ++ '/' :: pad4 Y)))
        = none := by
      apply strpDate_run_none
      rw [pad2_cons]
      simp only [fmtISO, runToks,
        parseY4_sep3 (show ('/' : Char).isDigit = false by decide)]
    rw [date_formats, tryFormats_cons_none hf1]
    apply tryFormats_cons_some
    apply strpDate_run ?_ hv hts
    simp only [fmtMDYslash, runToks, parseMon_pad2 hM1 hM2, parseDay_pad2 hD1 hD2,
      parseY4_pad4_end hY2]
    simp

/-- Round trip through format 3, `%d/%m/%Y`, for the unambiguous dates
(day at least 13, or day equal to month). -/
lemma roundtrip_DMYslash (flex : String → Option Date) {Y M D : Nat}
    (hv : validDate Y M D = true) (hts : inTimestampRange Y M D = true)
    (hD13 : 13 ≤ D ∨ D = M) :
    clean_and_parse_date flex (.str (renderFmt fmtDMYslash ⟨Y, M, D⟩)) = some ⟨Y, M, D⟩ := by
  obtain ⟨hY1, hY2, hM1, hM2, hD1, hD2⟩ := validDate_bounds hv
  have hform : renderFmt fmtDMYslash ⟨Y, M, D⟩
      = String.mk (pad2 D ++ '/' :: (pad2 M ++ '/' :: pad4 Y)) := rfl
  rw [hform]
  apply clean_of_tryFormats
  · apply trimStr_eq_self
    · intro c hc
      rw [head?_pad2_append] at hc
      obtain rfl := Option.some.inj hc
      exact isPyWS_dChar (by omega)
    · intro c hc
      have hlast : (pad2 D ++ '/' :: (pad2 M ++ '/' :: pad4 Y)).getLast?
          = some (dChar (Y % 10)) := by simp [pad4, pad2]
      rw [hlast] at hc
      obtain rfl := Option.some.inj hc
      exact isPyWS_dChar (by omega)
  · have hf1 : strpDate fmtISO (String.mk (pad2 D ++ '/' :: (pad2 M ++ '/' :: pad4 Y)))
        = none := by
      apply strpDate_run_none
      rw [pad2_cons]
      simp only [fmtISO, runToks,
        parseY4_sep3 (show ('/' : Char).isDigit = false by decide)]
    rw [date_formats, tryFormats_cons_none hf1]
    rcases hD13 with h13 | heq
    · have hf2 : strpDate fmtMDYslash
          (String.mk (pad2 D ++ '/' :: (pad2 M ++ '/' :: pad4 Y))) = none := by
        apply strpDate_run_none
        simp only [fmtMDYslash, runToks, parseMon_pad2_ge13 h13 hD2]
        simp [dChar_ne_slash (show D % 10 < 10 by omega)]
      rw [tryFormats_cons_none hf2]
      apply tryFormats_cons_some
      apply strpDate_run ?_ hv hts
      simp only [fmtDMYslash, runToks, parseDay_pad2 hD1 hD2, parseMon_pad2 hM1 hM2,
        parseY4_pad4_end hY2]
      simp
    · subst heq
      apply tryFormats_cons_some
      apply strpDate_run ?_ hv hts
      simp only [fmtMDYslash, runToks, parseMon_pad2 hD1 hM2,
        parseDay_pad2 hD1 (by omega : D ≤ 31), parseY4_pad4_end hY2]
      simp

/-- Round trip through format 4, `%m-%d-%Y`. -/
lemma roundtrip_MDYdash (flex : String → Option Date) {Y M D : Nat}
    (hv : validDate Y M D = true) (hts : inTimestampRange Y M D = true) :
    clean_and_parse_date flex (.str (renderFmt fmtMDYdash ⟨Y, M, D⟩)) = some ⟨Y, M, D⟩ := by
  obtain ⟨hY1, hY2, hM1, hM2, hD1, hD2⟩ := validDate_bounds hv
  have hform : renderFmt fmtMDYdash ⟨Y, M, D⟩
      = String.mk (pad2 M ++ '-' :: (pad2 D ++ '-' :: pad4 Y)) := rfl
  rw [hform]
  apply clean_of_tryFormats
  · apply trimStr_eq_self
    · intro c hc
      rw [head?_pad2_append] at hc
      obtain rfl := Option.some.inj hc
      exact isPyWS_dChar (by omega)
    · intro c hc
      have hlast : (pad2 M ++ '-' :: (pad2 D ++ '-' :: pad4 Y)).getLast?
          = some (dChar (Y % 10)) := by simp [pad4, pad2]
      rw [hlast] at hc
      obtain rfl := Option.some.inj hc
      exact isPyWS_dChar (by omega)
  · have hf1 : strpDate fmtISO (String.mk (pad2 M ++ '-' :: (pad2 D ++ '-' :: pad4 Y)))
        = none := by
      apply strpDate_run_none
      rw [pad2_cons]
      simp only [fmtISO, runToks,
        parseY4_sep3 (show ('-' : Char).isDigit = false by decide)]
    have hf2 : strpDate fmtMDYslash
        (String.mk (pad2 M ++ '-' :: (pad2 D ++ '-' :: pad4 Y))) = none := by
      apply strpDate_run_none
      simp only [fmtMDYslash, runToks, parseMon_pad2 hM1 hM2]
      simp
    have hf3 : strpDate fmtDMYslash
        (String.mk (pad2 M ++ '-' :: (pad2 D ++ '-' :: pad4 Y))) = none := by
      apply strpDate_run_none
      simp only [fmtDMYslash, runToks, parseDay_pad2 hM1 (by omega : M ≤ 31)]
      simp
    rw [date_formats, tryFormats_cons_none hf1, tryFormats_cons_none hf2,
      tryFormats_cons_none hf3]
    apply tryFormats_cons_some
    apply strpDate_run ?_ hv hts
    simp only [fmtMDYdash, runToks, parseMon_pad2 hM1 hM2, parseDay_pad2 hD1 hD2,
      parseY4_pad4_end hY2]
    simp

/-- Round trip through format 5, `%d-%m-%Y`, for the unambiguous dates. -/
lemma roundtrip_DMYdash (flex : String → Option Date) {Y M D : Nat}
    (hv : validDate Y M D = true) (hts : inTimestampRange Y M D = true)
    (hD13 : 13 ≤ D ∨ D = M) :
    clean_and_parse_date flex (.str (renderFmt fmtDMYdash ⟨Y, M, D⟩)) = some ⟨Y, M, D⟩ := by
  obtain ⟨hY1, hY2, hM1, hM2, hD1, hD2⟩ := validDate_bounds hv
  have hform : renderFmt fmtDMYdash ⟨Y, M, D⟩
      = String.mk (pad2 D ++ '-' :: (pad2 M ++ '-' :: pad4 Y)) := rfl
  rw [hform]
  apply clean_of_tryFormats
  · apply trimStr_eq_self
    · intro c hc
      rw [head?_pad2_append] at hc
      obtain rfl := Option.some.inj hc
      exact isPyWS_dChar (by omega)
    · intro c hc
      have hlast : (pad2 D ++ '-' :: (pad2 M ++ '-' :: pad4 Y)).getLast?
          = some (dChar (Y % 10)) := by simp [pad4, pad2]
      rw [hlast] at hc
      obtain rfl := Option.some.inj hc
      exact isPyWS_dChar (by omega)
  · have hf1 : strpDate fmtISO (String.mk (pad2 D ++ '-' :: (pad2 M ++ '-' :: pad4 Y)))
        = none := by
      apply strpDate_run_none
      rw [pad2_cons]
      simp only [fmtISO, runToks,
        parseY4_sep3 (show ('-' : Char).isDigit = false by decide)]
    have hf2 : strpDate fmtMDYslash
        (String.mk (pad2 D ++ '-' :: (pad2 M ++ '-' :: pad4 Y))) = none := by
      apply strpDate_run_none
      rw [pad2_cons]
      exact run_m2_lit_none (dChar_ne_slash (by omega))
        (fun c cs' heq => by injection heq with h1 h2; rw [← h1]; decide)
    have hf3 : strpDate fmtDMYslash
        (String.mk (pad2 D ++ '-' :: (pad2 M ++ '-' :: pad4 Y))) = none := by
      apply strpDate_run_none
      simp only [fmtDMYslash, runToks, parseDay_pad2 hD1 hD2]
      simp
    rw [date_formats, tryFormats_cons_none hf1, tryFormats_cons_none hf2,
      tryFormats_cons_none hf3]
    rcases hD13 with h13 | heq
    · have hf4 : strpDate fmtMDYdash
          (String.mk (pad2 D ++ '-' :: (pad2 M ++ '-' :: pad4 Y))) = none := by
        apply strpDate_run_none
        simp only [fmtMDYdash, runToks, parseMon_pad2_ge13 h13 hD2]
        simp [dChar_ne_dash (show D % 10 < 10 by omega)]
      rw [tryFormats_cons_none hf4]
      apply tryFormats_cons_some
      apply strpDate_run ?_ hv hts
      simp only [fmtDMYdash, runToks, parseDay_pad2 hD1 hD2, parseMon_pad2 hM1 hM2,
        parseY4_pad4_end hY2]
      simp
    · subst heq
      apply tryFormats_cons_some
      apply strpDate_run ?_ hv hts
      simp only [fmtMDYdash, runToks, parseMon_pad2 hD1 hM2,
        parseDay_pad2 hD1 (by omega : D ≤ 31), parseY4_pad4_end hY2]
      simp

/-- Round trip through format 6, `%Y/%m/%d`. -/
lemma roundtrip_YMDslash (flex : String → Option Date) {Y M D : Nat}
    (hv : validDate Y M D = true) (hts : inTimestampRange Y M D = true) :
    clean_and_parse_date flex (.str (renderFmt fmtYMDslash ⟨Y, M, D⟩)) = some ⟨Y, M, D⟩ := by
  obtain ⟨hY1, hY2, hM1, hM2, hD1, hD2⟩ := validDate_bounds hv
  have hform : renderFmt fmtYMDslash ⟨Y, M, D⟩
      = String.mk (pad4 Y ++ '/' :: (pad2 M ++ '/' :: pad2 D)) := rfl
  rw [hform]
  apply clean_of_tryFormats
  · apply trimStr_eq_self
    · intro c hc
      rw [head?_pad4_append] at hc
      obtain rfl := Option.some.inj hc
      exact isPyWS_dChar (by omega)
    · intro c hc
      have hlast : (pad4 Y ++ '/' :: (pad2 M ++ '/' :: pad2 D)).getLast?
          = some (dChar (D % 10)) := by simp [pad4, pad2]
      rw [hlast] at hc
      obtain rfl := Option.some.inj hc
      exact isPyWS_dChar (by omega)
  · have hf1 : strpDate fmtISO (String.mk (pad4 Y ++ '/' :: (pad2 M ++ '/' :: pad2 D)))
        = none := by
      apply strpDate_run_none
      simp only [fmtISO, runToks, parseY4_pad4 hY2]
      simp
    have hf2 : strpDate fmtMDYslash
        (String.mk (pad4 Y ++ '/' :: (pad2 M ++ '/' :: pad2 D))) = none :=
      strpDate_run_none (run_m2_lit_pad4 (fun k hk => dChar_ne_slash hk))
    have hf3 : strpDate fmtDMYslash
        (String.mk (pad4 Y ++ '/' :: (pad2 M ++ '/' :: pad2 D))) = none :=
      strpDate_run_none (run_d2_lit_pad4 (fun k hk => dChar_ne_slash hk))
    have hf4 : strpDate fmtMDYdash
        (String.mk (pad4 Y ++ '/' :: (pad2 M ++ '/' :: pad2 D))) = none :=
      strpDate_run_none (run_m2_lit_pad4 (fun k hk => dChar_ne_dash hk))
    have hf5 : strpDate fmtDMYdash
        (String.mk (pad4 Y ++ '/' :: (pad2 M ++ '/' :: pad2 D))) = none :=
      strpDate_run_none (run_d2_lit_pad4 (fun k hk => dChar_ne_dash hk))
    rw [date_formats, tryFormats_cons_none hf1, tryFormats_cons_none hf2,
      tryFormats_cons_none hf3, tryFormats_cons_none hf4, tryFormats_cons_none hf5]
    apply tryFormats_cons_some
    apply strpDate_run ?_ hv hts
    simp only [fmtYMDslash, runToks, parseY4_pad4 hY2, parseMon_pad2 hM1 hM2,
      parseDay_pad2_end hD1 hD2]
    simp

/-- Round trip through format 7, `%B %d, %Y`. -/
lemma roundtrip_BdY (flex : String → Option Date) {Y M D : Nat}
    (hv : validDate Y M D = true) (hts : inTimestampRange Y M D = true) :
    clean_and_parse_date flex (.str (renderFmt fmtBdY ⟨Y, M, D⟩)) = some ⟨Y, M, D⟩ := by
  obtain ⟨hY1, hY2, hM1, hM2, hD1, hD2⟩ := validDate_bounds hv
  obtain ⟨c0, rest, he, hgt, hdg, hws⟩ := monthName_shape hM1 hM2
  have hform : renderFmt fmtBdY ⟨Y, M, D⟩
      = String.mk ((monthName M).data ++ ' ' :: (pad2 D ++ ',' :: ' ' :: pad4 Y)) := rfl
  rw [hform]
  apply clean_of_tryFormats
  · apply trimStr_eq_self
    · intro c hc
      rw [he, List.cons_append, List.head?_cons] at hc
      obtain rfl := Option.some.inj hc
      exact hws
    · intro c hc
      have hlast : ((monthName M).data ++ ' ' :: (pad2 D ++ ',' :: ' ' :: pad4 Y)).getLast?
          = some (dChar (Y % 10)) := by simp [pad4, pad2]
      rw [hlast] at hc
      obtain rfl := Option.some.inj hc
      exact isPyWS_dChar (by omega)
  · have hf1 : strpDate fmtISO
        (String.mk ((monthName M).data ++ ' ' :: (pad2 D ++ ',' :: ' ' :: pad4 Y)))
        = none := by
      apply strpDate_run_none
      rw [he, List.cons_append]
      simp only [fmtISO, runToks, parseY4_head hdg]
    have hf2 : strpDate fmtMDYslash
        (String.mk ((monthName M).data ++ ' ' :: (pad2 D ++ ',' :: ' ' :: pad4 Y)))
        = none := by
      apply strpDate_run_none
      rw [he, List.cons_append]
      simp only [fmtMDYslash, runToks, parseMon_gt9 hgt]
    have hf3 : strpDate fmtDMYslash
        (String.mk ((monthName M).data ++ ' ' :: (pad2 D ++ ',' :: ' ' :: pad4 Y)))
        = none := by
      apply strpDate_run_none
      rw [he, List.cons_append]
      simp only [fmtDMYslash, runToks, parseDay_gt9 hgt]
    have hf4 : strpDate fmtMDYdash
        (String.mk ((monthName M).data ++ ' ' :: (pad2 D ++ ',' :: ' ' :: pad4 Y)))
        = none := by
      apply strpDate_run_none
      rw [he, List.cons_append]
      simp only [fmtMDYdash, runToks, parseMon_gt9 hgt]
    have hf5 : strpDate fmtDMYdash
        (String.mk ((monthName M).data ++ ' ' :: (pad2 D ++ ',' :: ' ' :: pad4 Y)))
        = none := by
      apply strpDate_run_none
      rw [he, List.cons_append]
      simp only [fmtDMYdash, runToks, parseDay_gt9 hgt]
    have hf6 : strpDate fmtYMDslash
        (String.mk ((monthName M).data ++ ' ' :: (pad2 D ++ ',' :: ' ' :: pad4 Y)))
        = none := by
      apply strpDate_run_none
      rw [he, List.cons_append]
      simp only [fmtYMDslash, runToks, parseY4_head hdg]
    rw [date_formats, tryFormats_cons_none hf1, tryFormats_cons_none hf2,
      tryFormats_cons_none hf3, tryFormats_cons_none hf4, tryFormats_cons_none hf5,
      tryFormats_cons_none hf6]
    apply tryFormats_cons_some
    apply strpDate_run ?_ hv hts
    simp only [fmtBdY, runToks, monthFull_parse hM1 hM2, parseDay_pad2 hD1 hD2,
      parseY4_pad4_end hY2]
    simp

/-- Round trip through format 8, `%b %d, %Y` (May resolves one format
earlier, at `%B %d, %Y`, with the same result). -/
lemma roundtrip_AbdY (flex : String → Option Date) {Y M D : Nat}
    (hv : validDate Y M D = true) (hts : inTimestampRange Y M D = true) :
    clean_and_parse_date flex (.str (renderFmt fmtAbdY ⟨Y, M, D⟩)) = some ⟨Y, M, D⟩ := by
  obtain ⟨hY1, hY2, hM1, hM2, hD1, hD2⟩ := validDate_bounds hv
  obtain ⟨c0, rest, he, hgt, hdg, hws⟩ := monthAbbr_shape hM1 hM2
  have hform : renderFmt fmtAbdY ⟨Y, M, D⟩
      = String.mk ((monthAbbr M).data ++ ' ' :: (pad2 D ++ ',' :: ' ' :: pad4 Y)) := rfl
  rw [hform]
  apply clean_of_tryFormats
  · apply trimStr_eq_self
    · intro c hc
      rw [he, List.cons_append, List.head?_cons] at hc
      obtain rfl := Option.some.inj hc
      exact hws
    · intro c hc
      have hlast : ((monthAbbr M).data ++ ' ' :: (pad2 D ++ ',' :: ' ' :: pad4 Y)).getLast?
          = some (dChar (Y % 10)) := by simp [pad4, pad2]
      rw [hlast] at hc
      obtain rfl := Option.some.inj hc
      exact isPyWS_dChar (by omega)
  · have hf1 : strpDate fmtISO
        (String.mk ((monthAbbr M).data ++ ' ' :: (pad2 D ++ ',' :: ' ' :: pad4 Y)))
        = none := by
      apply strpDate_run_none
      rw [he, List.cons_append]
      simp only [fmtISO, runToks, parseY4_head hdg]
    have hf2 : strpDate fmtMDYslash
        (String.mk ((monthAbbr M).data ++ ' ' :: (pad2 D ++ ',' :: ' ' :: pad4 Y)))
        = none := by
      apply strpDate_run_none
      rw [he, List.cons_append]
      simp only [fmtMDYslash, runToks, parseMon_gt9 hgt]
    have hf3 : strpDate fmtDMYslash
        (String.mk ((monthAbbr M).data ++ ' ' :: (pad2 D ++ ',' :: ' ' :: pad4 Y)))
        = none := by
      apply strpDate_run_none
      rw [he, List.cons_append]
      simp only [fmtDMYslash, runToks, parseDay_gt9 hgt]
    have hf4 : strpDate fmtMDYdash
        (String.mk ((monthAbbr M).data ++ ' ' :: (pad2 D ++ ',' :: ' ' :: pad4 Y)))
        = none := by
      apply strpDate_run_none
      rw [he, List.cons_append]
      simp only [fmtMDYdash, runToks, parseMon_gt9 hgt]
    have hf5 : strpDate fmtDMYdash
        (String.mk ((monthAbbr M).data ++ ' ' :: (pad2 D ++ ',' :: ' ' :: pad4 Y)))
        = none := by
      apply strpDate_run_none
      rw [he, List.cons_append]
      simp only [fmtDMYdash, runToks, parseDay_gt9 hgt]
    have hf6 : strpDate fmtYMDslash
        (String.mk ((monthAbbr M).data ++ ' ' :: (pad2 D ++ ',' :: ' ' :: pad4 Y)))
        = none := by
      apply strpDate_run_none
      rw [he, List.cons_append]
      simp only [fmtYMDslash, runToks, parseY4_head hdg]
    rw [date_formats, tryFormats_cons_none hf1, tryFormats_cons_none hf2,
      tryFormats_cons_none hf3, tryFormats_cons_none hf4, tryFormats_cons_none hf5,
      tryFormats_cons_none hf6]
    by_cases h5 : M = 5
    · subst h5
      apply tryFormats_cons_some
      apply strpDate_run ?_ hv hts
      rw [show monthAbbr 5 = monthName 5 from rfl]
      simp only [fmtBdY, runToks, monthFull_parse hM1 hM2,
        parseDay_pad2 hD1 hD2, parseY4_pad4_end hY2]
      simp
    · have hf7 : strpDate fmtBdY
          (String.mk ((monthAbbr M).data ++ ' ' :: (pad2 D ++ ',' :: ' ' :: pad4 Y)))
          = none := by
        apply strpDate_run_none
        simp only [fmtBdY, runToks, monthFull_on_abbr hM1 hM2 h5]
      rw [tryFormats_cons_none hf7]
      apply tryFormats_cons_some
      apply strpDate_run ?_ hv hts
      simp only [fmtAbdY, runToks, monthAbbr_parse hM1 hM2, parseDay_pad2 hD1 hD2,
        parseY4_pad4_end hY2]
      simp

/-- Round trip through format 9, `%d %B %Y`. -/
lemma roundtrip_DBY (flex : String → Option Date) {Y M D : Nat}
    (hv : validDate Y M D = true) (hts : inTimestampRange Y M D = true) :
    clean_and_parse_date flex (.str (renderFmt fmtDBY ⟨Y, M, D⟩)) = some ⟨Y, M, D⟩ := by
  obtain ⟨hY1, hY2, hM1, hM2, hD1, hD2⟩ := validDate_bounds hv
  have hform : renderFmt fmtDBY ⟨Y, M, D⟩
      = String.mk (pad2 D ++ ' ' :: ((monthName M).data ++ ' ' :: pad4 Y)) := rfl
  rw [hform]
  apply clean_of_tryFormats
  · apply trimStr_eq_self
    · intro c hc
      rw [head?_pad2_append] at hc
      obtain rfl := Option.some.inj hc
      exact isPyWS_dChar (by omega)
    · intro c hc
      have hlast : (pad2 D ++ ' ' :: ((monthName M).data ++ ' ' :: pad4 Y)).getLast?
          = some (dChar (Y % 10)) := by
        rw [show pad2 D ++ ' ' :: ((monthName M).data ++ ' ' :: pad4 Y)
            = (pad2 D ++ ' ' :: (monthName M).data ++ [' ']) ++ pad4 Y from by simp,
          getLast?_append_pad4]
      rw [hlast] at hc
      obtain rfl := Option.some.inj hc
      exact isPyWS_dChar (by omega)
  · have hf1 : strpDate fmtISO
        (String.mk (pad2 D ++ ' ' :: ((monthName M).data ++ ' ' :: pad4 Y))) = none := by
      apply strpDate_run_none
      rw [pad2_cons]
      simp only [fmtISO, runToks,
        parseY4_sep3 (show (' ' : Char).isDigit = false by decide)]
    have hf2 : strpDate fmtMDYslash
        (String.mk (pad2 D ++ ' ' :: ((monthName M).data ++ ' ' :: pad4 Y))) = none :=
      strpDate_run_none
        (run_m2_lit_pad2 (fun k hk => dChar_ne_slash hk) (by decide))
    have hf3 : strpDate fmtDMYslash
        (String.mk (pad2 D ++ ' ' :: ((monthName M).data ++ ' ' :: pad4 Y))) = none := by
      apply strpDate_run_none
      simp only [fmtDMYslash, runToks, parseDay_pad2 hD1 hD2]
      simp
    have hf4 : strpDate fmtMDYdash
        (String.mk (pad2 D ++ ' ' :: ((monthName M).data ++ ' ' :: pad4 Y))) = none :=
      strpDate_run_none
        (run_m2_lit_pad2 (fun k hk => dChar_ne_dash hk) (by decide))
    have hf5 : strpDate fmtDMYdash
        (String.mk (pad2 D ++ ' ' :: ((monthName M).data ++ ' ' :: pad4 Y))) = none := by
      apply strpDate_run_none
      simp only [fmtDMYdash, runToks, parseDay_pad2 hD1 hD2]
      simp
    have hf6 : strpDate fmtYMDslash
        (String.mk (pad2 D ++ ' ' :: ((monthName M).data ++ ' ' :: pad4 Y))) = none := by
      apply strpDate_run_none
      rw [pad2_cons]
      simp only [fmtYMDslash, runToks,
        parseY4_sep3 (show (' ' : Char).isDigit = false by decide)]
    have hf7 : strpDate fmtBdY
        (String.mk (pad2 D ++ ' ' :: ((monthName M).data ++ ' ' :: pad4 Y))) = none := by
      apply strpDate_run_none
      rw [pad2_cons]
      simp only [fmtBdY, runToks, parseMonthIn_digit_full (show D / 10 < 10 by omega)]
    have hf8 : strpDate fmtAbdY
        (String.mk (pad2 D ++ ' ' :: ((monthName M).data ++ ' ' :: pad4 Y))) = none := by
      apply strpDate_run_none
      rw [pad2_cons]
      simp only [fmtAbdY, runToks, parseMonthIn_digit_abbr (show D / 10 < 10 by omega)]
    rw [date_formats, tryFormats_cons_none hf1, tryFormats_cons_none hf2,
      tryFormats_cons_none hf3, tryFormats_cons_none hf4, tryFormats_cons_none hf5,
      tryFormats_cons_none hf6, tryFormats_cons_none hf7, tryFormats_cons_none hf8]
    apply tryFormats_cons_some
    apply strpDate_run ?_ hv hts
    simp only [fmtDBY, runToks, parseDay_pad2 hD1 hD2, monthFull_parse hM1 hM2,
      parseY4_pad4_end hY2]
    simp

/-- Round trip through format 10, `%d %b %Y` (May resolves at format 9
with the same result). -/
lemma roundtrip_DAbY (flex : String → Option Date) {Y M D : Nat}
    (hv : validDate Y M D = true) (hts : inTimestampRange Y M D = true) :
    clean_and_parse_date flex (.str (renderFmt fmtDAbY ⟨Y, M, D⟩)) = some ⟨Y, M, D⟩ := by
  obtain ⟨hY1, hY2, hM1, hM2, hD1, hD2⟩ := validDate_bounds hv
  have hform : renderFmt fmtDAbY ⟨Y, M, D⟩
      = String.mk (pad2 D ++ ' ' :: ((monthAbbr M).data ++ ' ' :: pad4 Y)) := rfl
  rw [hform]
  apply clean_of_tryFormats
  · apply trimStr_eq_self
    · intro c hc
      rw [head?_pad2_append] at hc
      obtain rfl := Option.some.inj hc
      exact isPyWS_dChar (by omega)
    · intro c hc
      have hlast : (pad2 D ++ ' ' :: ((monthAbbr M).data ++ ' ' :: pad4 Y)).getLast?
          = some (dChar (Y % 10)) := by
        rw [show pad2 D ++ ' ' :: ((monthAbbr M).data ++ ' ' :: pad4 Y)
            = (pad2 D ++ ' ' :: (monthAbbr M).data ++ [' ']) ++ pad4 Y from by simp,
          getLast?_append_pad4]
      rw [hlast] at hc
      obtain rfl := Option.some.inj hc
      exact isPyWS_dChar (by omega)
  · have hf1 : strpDate fmtISO
        (String.mk (pad2 D ++ ' ' :: ((monthAbbr M).data ++ ' ' :: pad4 Y))) = none := by
      apply strpDate_run_none
      rw [pad2_cons]
      simp only [fmtISO, runToks,
        parseY4_sep3 (show (' ' : Char).isDigit = false by decide)]
    have hf2 : strpDate fmtMDYslash
        (String.mk (pad2 D ++ ' ' :: ((monthAbbr M).data ++ ' ' :: pad4 Y))) = none :=
      strpDate_run_none
        (run_m2_lit_pad2 (fun k hk => dChar_ne_slash hk) (by decide))
    have hf3 : strpDate fmtDMYslash
        (String.mk (pad2 D ++ ' ' :: ((monthAbbr M).data ++ ' ' :: pad4 Y))) = none := by
      apply strpDate_run_none
      simp only [fmtDMYslash, runToks, parseDay_pad2 hD1 hD2]
      simp
    have hf4 : strpDate fmtMDYdash
        (String.mk (pad2 D ++ ' ' :: ((monthAbbr M).data ++ ' ' :: pad4 Y))) = none :=
      strpDate_run_none
        (run_m2_lit_pad2 (fun k hk => dChar_ne_dash hk) (by decide))
    have hf5 : strpDate fmtDMYdash
        (String.mk (pad2 D ++ ' ' :: ((monthAbbr M).data ++ ' ' :: pad4 Y))) = none := by
      apply strpDate_run_none
      simp only [fmtDMYdash, runToks, parseDay_pad2 hD1 hD2]
      simp
    have hf6 : strpDate fmtYMDslash
        (String.mk (pad2 D ++ ' ' :: ((monthAbbr M).data ++ ' ' :: pad4 Y))) = none := by
      apply strpDate_run_none
      rw [pad2_cons]
      simp only [fmtYMDslash, runToks,
        parseY4_sep3 (show (' ' : Char).isDigit = false by decide)]
    have hf7 : strpDate fmtBdY
        (String.mk (pad2 D ++ ' ' :: ((monthAbbr M).data ++ ' ' :: pad4 Y))) = none := by
      apply strpDate_run_none
      rw [pad2_cons]
      simp only [fmtBdY, runToks, parseMonthIn_digit_full (show D / 10 < 10 by omega)]
    have hf8 : strpDate fmtAbdY
        (String.mk (pad2 D ++ ' ' :: ((monthAbbr M).data ++ ' ' :: pad4 Y))) = none := by
      apply strpDate_run_none
      rw [pad2_cons]
      simp only [fmtAbdY, runToks, parseMonthIn_digit_abbr (show D / 10 < 10 by omega)]
    rw [date_formats, tryFormats_cons_none hf1, tryFormats_cons_none hf2,
      tryFormats_cons_none hf3, tryFormats_cons_none hf4, tryFormats_cons_none hf5,
      tryFormats_cons_none hf6, tryFormats_cons_none hf7, tryFormats_cons_none hf8]
    by_cases h5 : M = 5
    · subst h5
      apply tryFormats_cons_some
      apply strpDate_run ?_ hv hts
      rw [show monthAbbr 5 = monthName 5 from rfl]
      simp only [fmtDBY, runToks, parseDay_pad2 hD1 hD2,
        monthFull_parse hM1 hM2, parseY4_pad4_end hY2]
      simp
    · have hf9 : strpDate fmtDBY
          (String.mk (pad2 D ++ ' ' :: ((monthAbbr M).data ++ ' ' :: pad4 Y))) = none := by
        apply strpDate_run_none
        simp only [fmtDBY, runToks, parseDay_pad2 hD1 hD2,
          monthFull_on_abbr hM1 hM2 h5]
        simp
      rw [tryFormats_cons_none hf9]
      apply tryFormats_cons_some
      apply strpDate_run ?_ hv hts
      simp only [fmtDAbY, runToks, parseDay_pad2 hD1 hD2, monthAbbr_parse hM1 hM2,
        parseY4_pad4_end hY2]
      simp

/-- C2 counterexample: `%d/%m/%Y` is in the format list, but formatting
2024-01-05 with it gives `"05/01/2024"`, which the earlier `%m/%d/%Y`
pattern parses first, yielding 2024-05-01 instead of the original date. -/
theorem clean_and_parse_date_roundtrip_cex :
    fmtDMYslash ∈ date_formats ∧
    renderFmt fmtDMYslash ⟨2024, 1, 5⟩ = "05/01/2024" ∧
    clean_and_parse_date (fun _ => none) (.str (renderFmt fmtDMYslash ⟨2024, 1, 5⟩))
      = some ⟨2024, 5, 1⟩ ∧
    some (⟨2024, 5, 1⟩ : Date) ≠ some (⟨2024, 1, 5⟩ : Date) := by
  exact ⟨by decide, by decide, by decide, by decide⟩

/-- C2 (amended): for every format in the list other than the two
day-first numeric variants, formatting any valid date within the
pandas Timestamp range and normalizing the result returns the same
date; for `%d/%m/%Y` and `%d-%m-%Y` the round trip holds exactly on
the dates the earlier month-first pattern cannot capture differently
(day at least 13, or day equal to month).  Outside the Timestamp range
every explicit format fails and the program treats the string as
unparseable, so no round trip is claimed there. -/
theorem clean_and_parse_date_roundtrip (flex : String → Option Date)
    (fmt : List Tok) (hf : fmt ∈ date_formats) (dt : Date)
    (hv : validDate dt.year dt.month dt.day = true)
    (hts : inTimestampRange dt.year dt.month dt.day = true)
    (hdf : fmt = fmtDMYslash ∨ fmt = fmtDMYdash → 13 ≤ dt.day ∨ dt.day = dt.month) :
    clean_and_parse_date flex (.str (renderFmt fmt dt)) = some dt := by
  obtain ⟨Y, M, D⟩ := dt
  rw [date_formats] at hf
  simp only [List.mem_cons, List.not_mem_nil, or_false] at hf
  rcases hf with rfl | rfl | rfl | rfl | rfl | rfl | rfl | rfl | rfl | rfl
  · exact roundtrip_ISO flex hv hts
  · exact roundtrip_MDYslash flex hv hts
  · exact roundtrip_DMYslash flex hv hts (hdf (Or.inl rfl))
  · exact roundtrip_MDYdash flex hv hts
  · exact roundtrip_DMYdash flex hv hts (hdf (Or.inr rfl))
  · exact roundtrip_YMDslash flex hv hts
  · exact roundtrip_BdY flex hv hts
  · exact roundtrip_AbdY flex hv hts
  · exact roundtrip_DBY flex hv hts
  · exact roundtrip_DAbY flex hv hts

/-- Witness for the amended C2 theorem at a concrete format and date. -/
theorem clean_and_parse_date_roundtrip_witness :
    clean_and_parse_date (fun _ => none) (.str (renderFmt fmtISO ⟨2024, 1, 5⟩))
      = some ⟨2024, 1, 5⟩ :=
  clean_and_parse_date_roundtrip (fun _ => none) fmtISO (by decide) ⟨2024, 1, 5⟩
    (by decide) (by decide) (fun h => absurd h (by decide))

/-! ### RecordExtractor: `extract_data_from_xlsx` -/

def allDigits (cs : List Char) : Bool := cs.all Char.isDigit

def digitsToNat (cs : List Char) : Nat := cs.foldl (fun n c => n * 10 + dVal c) 0

/-- Model of Python float-literal parsing, as used by
`pd.to_numeric(errors=coerce)` on strings: optional sign, decimal
digits with at most one point (exponents are out of the modelled
fragment). -/
def parseFloatStr (s : String) : Option ℚ :=
  let cs0 := (trimStr s).data
  let sgn : ℚ := match cs0 with
    | '-' :: _ => -1
    | _ => 1
  let cs := match cs0 with
    | '-' :: t => t
    | '+' :: t => t
    | _ => cs0
  match splitFuel ['.'] (cs.length + 1) cs [] with
  | [ip] =>
    if !ip.isEmpty && allDigits ip then some (sgn * digitsToNat ip) else none
  | [ip, fp] =>
    if (!ip.isEmpty || !fp.isEmpty) && allDigits ip && allDigits fp then
      some (sgn * ((digitsToNat ip : ℚ) + (digitsToNat fp : ℚ) / (10 : ℚ) ^ fp.length))
    else none
  | _ => none

/-- Model of `pd.to_numeric(value, errors=coerce)` on a cell. -/
def toNumeric : Cell → Option ℚ
  | .empty => none
  | .num q => some q
  | .str s => parseFloatStr s

/-- One validated timesheet row; the Year/Month/MonthName/YearMonth
columns the code attaches are functions of `date` and are derived where
needed. -/
structure Record where
  developer : String
  date : Date
  hours : ℚ
deriving DecidableEq, Repr

/-- Embedding of `extract_data_from_xlsx` (src/app.py, lines 123-181):
returns the extracted records or the file-level rejection reason.  The
grid stands for the decoded spreadsheet; decode failures surface as the
read errors of the batch loop. -/
def extract_data_from_xlsx (flex : String → Option Date) (g : Grid)
    (file_name : String) : Except String (List Record) :=
  if nrows g = 0 || ncols g = 0 then .error ("Empty file: " ++ file_name)
  else
    match detect_headers g with
    | (some header_row, some date_col, some hours_col) =>
      if nrows g ≤ header_row + 1 then
        .error ("No data rows found after header in: " ++ file_name)
      else
        let dataRows := (List.range (nrows g)).drop (header_row + 1)
        let parsed := dataRows.map (fun r =>
          (clean_and_parse_date flex (cellAt g r date_col),
           toNumeric (cellAt g r hours_col)))
        let dropped := parsed.filterMap (fun p =>
          match p.1, p.2 with
          | some d, some h => some (d, h)
          | _, _ => none)
        let valid := dropped.filter (fun p => 0 < p.2)
        if valid.isEmpty then
          .error ("No valid date/hours data found in: " ++ file_name)
        else
          .ok (valid.map (fun p => ⟨extract_developer_name file_name, p.1, p.2⟩))
    | _ => .error ("Could not detect date/hours columns in: " ++ file_name)

/-- Claim-side description of the surviving rows: a data row survives
exactly when its date parses, its hours are numeric, and the hours are
strictly positive. -/
def validRowData (flex : String → Option Date) (g : Grid) (hr dc hc : Nat) :
    List (Date × ℚ) :=
  ((List.range (nrows g)).drop (hr + 1)).filterMap (fun r =>
    match clean_and_parse_date flex (cellAt g r dc), toNumeric (cellAt g r hc) with
    | some d, some h => if 0 < h then some (d, h) else none
    | _, _ => none)

/-- Dropping non-parsing rows and then non-positive hours equals the
one-pass row filter. -/
lemma dropna_filter_eq (L : List Nat) (fd : Nat → Option Date) (fh : Nat → Option ℚ) :
    ((L.map (fun r => (fd r, fh r))).filterMap (fun p =>
        match p.1, p.2 with
        | some d, some h => some (d, h)
        | _, _ => none)).filter (fun p => 0 < p.2)
      = L.filterMap (fun r =>
          match fd r, fh r with
          | some d, some h => if 0 < h then some (d, h) else none
          | _, _ => none) := by
  induction L with
  | nil => rfl
  | cons r rs ih =>
    rw [List.filterMap_map] at ih
    simp only [List.map_cons, List.filterMap_cons, List.filterMap_map]
    cases hd : fd r with
    | none => cases hh : fh r <;> simpa using ih
    | some d =>
      cases hh : fh r with
      | none => simpa using ih
      | some h =>
        by_cases h0 : 0 < h
        · simp [List.filter_cons, h0, ih]
        · simp [List.filter_cons, h0, ih]

lemma detect_headers_found_nonempty {g : Grid} {hr dc hc : Nat}
    (hdet : detect_headers g = (some hr, some dc, some hc)) :
    0 < nrows g ∧ 0 < ncols g := by
  rw [detect_headers, detectAux_eq] at hdet
  cases hf : (List.range (min 10 (nrows g))).find?
      (fun r => rowHasDate g r && rowHasHours g r) with
  | none => rw [hf] at hdet; simp at hdet
  | some r' =>
    rw [hf] at hdet
    have hmem := List.mem_of_find?_eq_some hf
    have hp := List.find?_some hf
    rw [List.mem_range] at hmem
    rw [Bool.and_eq_true] at hp
    obtain ⟨hpd, _⟩ := hp
    rw [rowHasDate, List.any_eq_true] at hpd
    obtain ⟨cd, hcd, _⟩ := hpd
    rw [List.mem_range] at hcd
    omega

/-- C4: when a header is found and data rows exist, the extraction
output consists exactly of the rows whose date parses, whose hours are
numeric, and whose hours are positive — silently dropping the rest —
and if every data row is dropped the file is rejected with the
"no valid data" reason. -/
theorem extract_data_from_xlsx_row_filter (flex : String → Option Date)
    (g : Grid) (name : String) (hr dc hc : Nat)
    (hdet : detect_headers g = (some hr, some dc, some hc))
    (hdata : hr + 1 < nrows g) :
    (validRowData flex g hr dc hc ≠ [] →
      extract_data_from_xlsx flex g name
        = .ok ((validRowData flex g hr dc hc).map
            (fun p => ⟨extract_developer_name name, p.1, p.2⟩))) ∧
    (validRowData flex g hr dc hc = [] →
      extract_data_from_xlsx flex g name
        = .error ("No valid date/hours data found in: " ++ name)) := by
  obtain ⟨hnr, hnc⟩ := detect_headers_found_nonempty hdet
  have hguard : (nrows g = 0 || ncols g = 0) = false := by
    simp only [Bool.or_eq_false_iff, decide_eq_false_iff_not]
    omega
  have hvr : validRowData flex g hr dc hc
      = ((((List.range (nrows g)).drop (hr + 1)).map (fun r =>
          (clean_and_parse_date flex (cellAt g r dc),
           toNumeric (cellAt g r hc)))).filterMap (fun p =>
            match p.1, p.2 with
            | some d, some h => some (d, h)
            | _, _ => none)).filter (fun p => 0 < p.2) := by
    rw [validRowData]
    exact (dropna_filter_eq _ _ _).symm
  constructor
  · intro hne
    rw [extract_data_from_xlsx, hguard, hdet]
    simp only [Bool.false_eq_true, if_false]
    rw [if_neg (by omega), ← hvr, if_neg (by simpa [List.isEmpty_iff] using hne)]
  · intro hemp
    rw [extract_data_from_xlsx, hguard, hdet]
    simp only [Bool.false_eq_true, if_false]
    rw [if_neg (by omega), ← hvr, if_pos (by simpa [List.isEmpty_iff] using hemp)]

/-- A grid with one good row, one unparseable row, and one
negative-hours row. -/
def gridC4 : Grid :=
  [[Cell.str "Date", Cell.str "Hours"],
   [Cell.str "2024-01-05", Cell.num 8],
   [Cell.str "bad", Cell.str "x"],
   [Cell.str "2024-01-07", Cell.num (-1)]]

/-- Witness for C4: only the valid row survives, the malformed and
non-positive rows are dropped without a file-level error. -/
theorem extract_data_from_xlsx_row_filter_witness :
    extract_data_from_xlsx (fun _ => none) gridC4 "john_timesheet.xlsx"
      = .ok [⟨"John", ⟨2024, 1, 5⟩, 8⟩] :=
  ((extract_data_from_xlsx_row_filter (fun _ => none) gridC4 "john_timesheet.xlsx"
      0 0 1 (by decide) (by decide)).1 (by decide)).trans (by rfl)

/-! ### BatchProcessor: `process_zip_file` -/

/-- One archive entry: its name, and either the decoded grid or the
read failure raised while opening the entry. -/
structure ZipEntry where
  name : String
  content : Except String Grid

/-- The loop body of `process_zip_file` (src/app.py, lines 229-246):
accumulates per-file record lists, error messages, and processed names. -/
def processStep (flex : String → Option Date)
    (acc : List (List Record) × List String × List String) (e : ZipEntry) :
    List (List Record) × List String × List String :=
  match e.content with
  | .error msg =>
    (acc.1, acc.2.1 ++ ["Could not read " ++ e.name ++ ": " ++ msg], acc.2.2)
  | .ok g =>
    match extract_data_from_xlsx flex g e.name with
    | .ok recs => (acc.1 ++ [recs], acc.2.1, acc.2.2 ++ [e.name])
    | .error msg => (acc.1, acc.2.1 ++ [msg], acc.2.2)

/-- Embedding of `process_zip_file` (src/app.py, lines 205-258), from
the opened archive's entry list (the fatal cannot-open-archive path is
outside the entry list).  Returns
`(records, errors, processedFiles, skippedFiles)`. -/
def process_zip_file (flex : String → Option Date) (entries : List ZipEntry) :
    List Record × List String × List String × List String :=
  let xlsx_files := entries.filter (fun e => is_valid_excel_file e.name)
  let skipped_files := (entries.filter (fun e =>
      (endsWithS e.name ".xlsx" || endsWithS e.name ".xls")
        && !is_valid_excel_file e.name)).map (fun e => e.name)
  if xlsx_files.isEmpty then
    ([], ["No valid XLSX files found in ZIP"], [], skipped_files)
  else
    let res := xlsx_files.foldl (processStep flex) ([], [], [])
    (res.1.flatten, res.2.1, res.2.2, skipped_files)

/-- The filter-passing entries of an archive. -/
def validEntries (entries : List ZipEntry) : List ZipEntry :=
  entries.filter (fun e => is_valid_excel_file e.name)

/-- The per-entry result: a read failure becomes the read-error
message, otherwise the extraction outcome. -/
def entryOutcome (flex : String → Option Date) (e : ZipEntry) :
    Except String (List Record) :=
  match e.content with
  | .error msg => .error ("Could not read " ++ e.name ++ ": " ++ msg)
  | .ok g => extract_data_from_xlsx flex g e.name

def entryOk (flex : String → Option Date) (e : ZipEntry) : Bool :=
  match entryOutcome flex e with
  | .ok _ => true
  | .error _ => false

def entryRecs (flex : String → Option Date) (e : ZipEntry) : List Record :=
  match entryOutcome flex e with
  | .ok recs => recs
  | .error _ => []

def entryErr (flex : String → Option Date) (e : ZipEntry) : String :=
  match entryOutcome flex e with
  | .ok _ => ""
  | .error msg => msg

/-- The batch fold routes every entry to exactly one of the processed
or error accumulators, from any starting accumulator. -/
lemma processStep_foldl (flex : String → Option Date) (l : List ZipEntry)
    (A : List (List Record)) (E P : List String) :
    l.foldl (processStep flex) (A, E, P) =
      (A ++ (l.filter (entryOk flex)).map (entryRecs flex),
       E ++ (l.filter (fun e => !entryOk flex e)).map (entryErr flex),
       P ++ (l.filter (entryOk flex)).map (fun e => e.name)) := by
  induction l generalizing A E P with
  | nil => simp
  | cons e es ih =>
    rw [List.foldl_cons]
    cases hoc : e.content with
    | error msg =>
      have hok : entryOk flex e = false := by simp [entryOk, entryOutcome, hoc]
      have herr : entryErr flex e = "Could not read " ++ e.name ++ ": " ++ msg := by
        simp [entryErr, entryOutcome, hoc]
      rw [show processStep flex (A, E, P) e
          = (A, E ++ ["Could not read " ++ e.name ++ ": " ++ msg], P) from by
        simp [processStep, hoc]]
      rw [ih]
      simp [List.filter_cons, hok, herr]
    | ok g =>
      cases hex : extract_data_from_xlsx flex g e.name with
      | error msg =>
        have hok : entryOk flex e = false := by simp [entryOk, entryOutcome, hoc, hex]
        have herr : entryErr flex e = msg := by simp [entryErr, entryOutcome, hoc, hex]
        rw [show processStep flex (A, E, P) e = (A, E ++ [msg], P) from by
          simp [processStep, hoc, hex]]
        rw [ih]
        simp [List.filter_cons, hok, herr]
      | ok recs =>
        have hok : entryOk flex e = true := by simp [entryOk, entryOutcome, hoc, hex]
        have hrec : entryRecs flex e = recs := by simp [entryRecs, entryOutcome, hoc, hex]
        rw [show processStep flex (A, E, P) e = (A ++ [recs], E, P ++ [e.name]) from by
          simp [processStep, hoc, hex]]
        rw [ih]
        simp [List.filter_cons, hok, hrec]

lemma length_filter_add_length_filter_not (l : List ZipEntry) (p : ZipEntry → Bool) :
    (l.filter p).length + (l.filter (fun e => !p e)).length = l.length := by
  induction l with
  | nil => rfl
  | cons e es ih =>
    rw [List.filter_cons, List.filter_cons]
    cases hp : p e <;> simp [hp, ← ih] <;> omega

/-- C7: when the archive has at least one filter-passing entry, each
such entry is routed to exactly one of `processedFiles` (on success)
and `errors` (on rejection or read failure); `processedFiles` lists, in
order, exactly the entries whose records make up the combined result,
and a failing entry never stops the remaining entries from being
processed. -/
theorem process_zip_file_partition (flex : String → Option Date)
    (entries : List ZipEntry) (hne : validEntries entries ≠ []) :
    (process_zip_file flex entries).1
      = (((validEntries entries).filter (entryOk flex)).map (entryRecs flex)).flatten ∧
    (process_zip_file flex entries).2.1
      = ((validEntries entries).filter (fun e => !entryOk flex e)).map (entryErr flex) ∧
    (process_zip_file flex entries).2.2.1
      = ((validEntries entries).filter (entryOk flex)).map (fun e => e.name) ∧
    (process_zip_file flex entries).2.2.1.length
        + (process_zip_file flex entries).2.1.length
      = (validEntries entries).length := by
  have hemp : (entries.filter (fun e => is_valid_excel_file e.name)).isEmpty = false := by
    cases hfe : entries.filter (fun e => is_valid_excel_file e.name) with
    | nil => exact absurd hfe hne
    | cons a l => rfl
  rw [process_zip_file]
  simp only [hemp, Bool.false_eq_true, if_false, processStep_foldl, List.nil_append]
  refine ⟨rfl, rfl, rfl, ?_⟩
  simp only [List.length_map]
  exact length_filter_add_length_filter_not _ _

/-- An archive with one good entry, one rejected entry (no header), and
one unreadable entry. -/
def archiveC7 : List ZipEntry :=
  [⟨"john_timesheet.xlsx", .ok gridC4⟩,
   ⟨"bad_timesheet.xlsx", .ok [[Cell.str "nothing"]]⟩,
   ⟨"broken_timesheet.xlsx", .error "corrupt"⟩]

/-- Witness for C7 at a concrete archive: one processed entry, two
errors, no aborted batch. -/
theorem process_zip_file_partition_witness :
    (process_zip_file (fun _ => none) archiveC7).1
      = (((validEntries archiveC7).filter (entryOk (fun _ => none))).map
          (entryRecs (fun _ => none))).flatten ∧
    (process_zip_file (fun _ => none) archiveC7).2.1
      = ((validEntries archiveC7).filter (fun e => !entryOk (fun _ => none) e)).map
          (entryErr (fun _ => none)) ∧
    (process_zip_file (fun _ => none) archiveC7).2.2.1
      = ((validEntries archiveC7).filter (entryOk (fun _ => none))).map
          (fun e => e.name) ∧
    (process_zip_file (fun _ => none) archiveC7).2.2.1.length
        + (process_zip_file (fun _ => none) archiveC7).2.1.length
      = (validEntries archiveC7).length :=
  process_zip_file_partition (fun _ => none) archiveC7
    (fun h => absurd (congrArg List.length h) (by decide))

/-! ### Aggregator: `create_monthly_summary` -/

/-- Grouping key of the summary: `(Developer, Year, Month)`.  The code
also lists `MonthName` and `YearMonth` in the groupby key, but both are
functions of `(Year, Month)`, so the groups coincide. -/
def recordKey (r : Record) : String × Nat × Nat :=
  (r.developer, r.date.year, r.date.month)

/-- The `sort_values([Year, Month, Developer])` order on group keys. -/
def keyLE (a b : String × Nat × Nat) : Prop :=
  a.2.1 < b.2.1 ∨ (a.2.1 = b.2.1 ∧ (a.2.2 < b.2.2 ∨ (a.2.2 = b.2.2 ∧ a.1 ≤ b.1)))

instance : DecidableRel keyLE := fun a b => by
  unfold keyLE
  infer_instance

instance : IsTotal (String × Nat × Nat) keyLE := by
  constructor
  intro a b
  rcases Nat.lt_trichotomy a.2.1 b.2.1 with h | h | h
  · exact Or.inl (Or.inl h)
  · rcases Nat.lt_trichotomy a.2.2 b.2.2 with h2 | h2 | h2
    · exact Or.inl (Or.inr ⟨h, Or.inl h2⟩)
    · rcases le_total a.1 b.1 with h3 | h3
      · exact Or.inl (Or.inr ⟨h, Or.inr ⟨h2, h3⟩⟩)
      · exact Or.inr (Or.inr ⟨h.symm, Or.inr ⟨h2.symm, h3⟩⟩)
    · exact Or.inr (Or.inr ⟨h.symm, Or.inl h2⟩)
  · exact Or.inr (Or.inl h)

instance : IsTrans (String × Nat × Nat) keyLE := by
  constructor
  intro a b c hab hbc
  rcases hab with h1 | ⟨e1, hab2⟩
  · rcases hbc with h2 | ⟨e2, _⟩
    · exact Or.inl (by omega)
    · exact Or.inl (by omega)
  · rcases hbc with h2 | ⟨e2, hbc2⟩
    · exact Or.inl (by omega)
    · refine Or.inr ⟨by omega, ?_⟩
      rcases hab2 with m1 | ⟨em1, s1⟩
      · rcases hbc2 with m2 | ⟨em2, _⟩
        · exact Or.inl (by omega)
        · exact Or.inl (by omega)
      · rcases hbc2 with m2 | ⟨em2, s2⟩
        · exact Or.inl (by omega)
        · exact Or.inr ⟨by omega, le_trans s1 s2⟩

instance : IsAntisymm (String × Nat × Nat) keyLE := by
  constructor
  intro a b hab hba
  obtain ⟨a1, a2, a3⟩ := a
  obtain ⟨b1, b2, b3⟩ := b
  rcases hab with h1 | ⟨e1, hab2⟩
  · rcases hba with h2 | ⟨e2, _⟩ <;> (simp only [] at *; omega)
  · rcases hba with h2 | ⟨e2, hba2⟩
    · simp only [] at *; omega
    · simp only [] at e1 hab2 hba2
      rcases hab2 with m1 | ⟨em1, s1⟩
      · rcases hba2 with m2 | ⟨em2, _⟩ <;> omega
      · rcases hba2 with m2 | ⟨em2, s2⟩
        · omega
        · have hs : a1 = b1 := le_antisymm s1 s2
          simp [hs, e1, em1]

/-- One row of the monthly summary, with the derived presentation
columns the code attaches (`YearMonthStr` is `%Y-%m`, `MonthYear` is
`MonthName Year`). -/
structure MonthlyBucket where
  developer : String
  year : Nat
  month : Nat
  monthName : String
  hours : ℚ
  workingDays : Nat
  yearMonthStr : String
  monthYear : String
deriving DecidableEq, Repr

/-- The aggregate row of one `(Developer, Year, Month)` group:
`Hours` summed, `Date` counted (working days). -/
def mkBucket (xs : List Record) (k : String × Nat × Nat) : MonthlyBucket :=
  let grp := xs.filter (fun r => recordKey r = k)
  { developer := k.1
    year := k.2.1
    month := k.2.2
    monthName := monthName k.2.2
    hours := (grp.map (fun r => r.hours)).sum
    workingDays := grp.length
    yearMonthStr := String.mk (pad4 k.2.1) ++ "-" ++ String.mk (pad2 k.2.2)
    monthYear := monthName k.2.2 ++ " " ++ toString k.2.1 }

/-- Embedding of `create_monthly_summary` (src/app.py, lines 260-273):
one aggregate row per distinct group key, ordered by
`(Year, Month, Developer)` — the full sort key of `sort_values`, which
is total on the rows because the grouping key determines the row. -/
def create_monthly_summary (xs : List Record) : List MonthlyBucket :=
  (List.insertionSort keyLE ((xs.map recordKey).dedup)).map (mkBucket xs)

lemma mkBucket_perm {xs ys : List Record} (h : xs.Perm ys)
    (k : String × Nat × Nat) : mkBucket xs k = mkBucket ys k := by
  have hfil : (xs.filter (fun r => recordKey r = k)).Perm
      (ys.filter (fun r => recordKey r = k)) := h.filter _
  rw [mkBucket, mkBucket]
  simp only [MonthlyBucket.mk.injEq, true_and, and_true]
  exact ⟨(hfil.map (fun r => r.hours)).sum_eq, hfil.length_eq⟩

/-- C8: the summary is invariant under permutations of the input
records, and its output is sorted by `(year, month, developer)`
ascending. -/
theorem create_monthly_summary_perm_sorted (xs ys : List Record)
    (hperm : xs.Perm ys) :
    create_monthly_summary xs = create_monthly_summary ys ∧
    (create_monthly_summary xs).Sorted (fun b1 b2 =>
      b1.year < b2.year ∨ (b1.year = b2.year ∧ (b1.month < b2.month ∨
        (b1.month = b2.month ∧ b1.developer ≤ b2.developer)))) := by
  constructor
  · have hkperm : ((xs.map recordKey).dedup).Perm ((ys.map recordKey).dedup) :=
      (hperm.map recordKey).dedup
    have hp : (List.insertionSort keyLE ((xs.map recordKey).dedup)).Perm
        (List.insertionSort keyLE ((ys.map recordKey).dedup)) :=
      ((List.perm_insertionSort keyLE _).trans hkperm).trans
        (List.perm_insertionSort keyLE _).symm
    have hkeys : List.insertionSort keyLE ((xs.map recordKey).dedup)
        = List.insertionSort keyLE ((ys.map recordKey).dedup) :=
      List.eq_of_perm_of_sorted hp (List.sorted_insertionSort keyLE _)
        (List.sorted_insertionSort keyLE _)
    rw [create_monthly_summary, create_monthly_summary, hkeys]
    exact List.map_congr_left (fun k _ => mkBucket_perm hperm k)
  · rw [create_monthly_summary]
    refine List.Pairwise.map (mkBucket xs) ?_ (List.sorted_insertionSort keyLE _)
    intro a b hab
    unfold keyLE at hab
    exact hab

def recA : Record := ⟨"John", ⟨2024, 1, 5⟩, 8⟩

def recB : Record := ⟨"Amy", ⟨2024, 2, 6⟩, 6⟩

/-- Witness for C8 at a concrete pair of record lists. -/
theorem create_monthly_summary_perm_sorted_witness :
    create_monthly_summary [recA, recB] = create_monthly_summary [recB, recA] ∧
    (create_monthly_summary [recA, recB]).Sorted (fun b1 b2 =>
      b1.year < b2.year ∨ (b1.year = b2.year ∧ (b1.month < b2.month ∨
        (b1.month = b2.month ∧ b1.developer ≤ b2.developer)))) :=
  create_monthly_summary_perm_sorted [recA, recB] [recB, recA] (by decide)

/-! ### End-to-end scenario A -/

/-- `john_timesheet.xlsx`: header row 0, two data rows. -/
def johnGrid : Grid :=
  [[.str "Date", .str "Hours"],
   [.str "2024-01-05", .num 8],
   [.str "2024-01-06", .num (15.5 - 8)]]

def johnArchive : List ZipEntry := [⟨"john_timesheet.xlsx", .ok johnGrid⟩]

attribute [local semireducible] Rat.add Rat.sub Rat.mul Rat.inv Rat.ofScientific

/-- C9: the archive with the single `john_timesheet.xlsx` file yields
exactly one processed file, every record carries developer `"John"`,
and aggregation yields the single (John, 2024, January) bucket with
15.5 total hours over 2 working days — for an arbitrary permissive
fallback parser, which is never consulted. -/
theorem end_to_end_john (flex : String → Option Date) :
    (process_zip_file flex johnArchive).2.2.1 = ["john_timesheet.xlsx"] ∧
    ((process_zip_file flex johnArchive).1.map (fun r => r.developer))
      = ["John", "John"] ∧
    create_monthly_summary (process_zip_file flex johnArchive).1
      = [⟨"John", 2024, 1, "January", 15.5, 2, "2024-01", "January 2024"⟩] := by
  have hrec : (process_zip_file flex johnArchive).1
      = [⟨"John", ⟨2024, 1, 5⟩, 8⟩, ⟨"John", ⟨2024, 1, 6⟩, 15.5 - 8⟩] := rfl
  refine ⟨rfl, ?_, ?_⟩
  · rw [hrec]
    rfl
  · rw [hrec]
    have hb : create_monthly_summary
        [⟨"John", ⟨2024, 1, 5⟩, 8⟩, ⟨"John", ⟨2024, 1, 6⟩, 15.5 - 8⟩]
        = [mkBucket [⟨"John", ⟨2024, 1, 5⟩, 8⟩, ⟨"John", ⟨2024, 1, 6⟩, 15.5 - 8⟩]
            ("John", 2024, 1)] := rfl
    rw [hb]
    congr 1

end Timesheet
